import Mathlib

/-!
Verification of the content-scheduling and batch-generation core of the
vixenbliss_creator backend.

Times are modelled in whole minutes (as `Int`, UTC); `datetime` values in the
source carry seconds and microseconds, but every code path embedded here zeroes
them (`second=0, microsecond=0`) or only compares/adds whole hours and minutes.
Python's `//` and `%` on integers agree with Lean's `/` and `%` on `Int` for
positive divisors, which is the only way they are used here.

Timezones (`pytz`) are modelled as a fixed offset in minutes added to UTC;
daylight-saving transitions are out of scope, and every scenario checked below
uses the account default `"UTC"` (offset 0).
-/

namespace VB

/-- Social platforms (`app/models/social_account.py`, `class Platform`). -/
inductive Platform
  | instagram
  | tiktok
  | twitter
  | onlyfans
deriving DecidableEq

/-- Post status strings of `ScheduledPost.status`
(`app/models/social_account.py`: pending, published, failed, cancelled). -/
inductive PostStatus
  | pending
  | published
  | failed
  | cancelled
deriving DecidableEq

/-- Optimal posting hours per platform in UTC
(`SmartSchedulerService.__init__`, `self.optimal_hours`). -/
def optimalHours : Platform → List Nat
  | .instagram => [13, 14, 15, 17, 18, 19]
  | .tiktok => [14, 15, 16, 18, 19, 20, 21]
  | .twitter => [12, 13, 17, 18]
  | .onlyfans => [20, 21, 22, 23]

/-- Minimum hours between posts per platform
(`SmartSchedulerService.__init__`, `self.min_interval`). -/
def minIntervalHours : Platform → Nat
  | .instagram => 4
  | .tiktok => 3
  | .twitter => 1
  | .onlyfans => 6

/-- Maximum posts per day per platform
(`SmartSchedulerService.__init__`, `self.max_posts_per_day`). -/
def maxPostsPerDay : Platform → Nat
  | .instagram => 3
  | .tiktok => 5
  | .twitter => 10
  | .onlyfans => 2

/-- Minutes in a day. -/
def minutesPerDay : Int := 1440

/-- Midnight of the day containing `t`
(`datetime.replace(hour=0, minute=0, second=0, microsecond=0)`). -/
def dayFloor (t : Int) : Int := t / 1440 * 1440

/-- Hour-of-day of a time in minutes (`datetime.hour`). -/
def hourOfDay (t : Int) : Int := t % 1440 / 60

/-- The `datetime.replace(hour=h, minute=m, second=0, microsecond=0)` operation. -/
def replaceHourMinute (t h m : Int) : Int := dayFloor t + h * 60 + m

/-- `SmartSchedulerService.get_optimal_posting_time`
(`app/services/smart_scheduler.py:47-98`).  The user timezone is the offset
`tzOff` in minutes (`pytz` conversion); `randMinute` stands for the
`random.randint(0, 59)` minute draw.  The `[12, 18]` default of
`self.optimal_hours.get` is never read because `optimalHours` is total, and
each platform's hour list is non-empty, so `optimal_hours[0]` is `headD`. -/
def getOptimalPostingTime (platform : Platform) (tzOff targetDate : Int)
    (randMinute : Nat) : Int :=
  let hours := optimalHours platform
  let userTime := targetDate + tzOff
  let currentHour := hourOfDay userTime
  match hours.filter (fun (h : Nat) => (h : Int) > currentHour) with
  | nextHour :: _ => replaceHourMinute userTime nextHour randMinute - tzOff
  | [] => replaceHourMinute (userTime + minutesPerDay) (hours.headD 12) randMinute - tzOff

/-- `SmartSchedulerService._apply_pattern_randomization`
(`app/services/smart_scheduler.py:208-230`): shifts by the
`random.randint(-30, 30)` minute draw `minuteOffset` and, when the 10% coin
`skipDay` comes up, pushes the post one day later. -/
def applyPatternRandomization (scheduledTime minuteOffset : Int) (skipDay : Bool) : Int :=
  let t := scheduledTime + minuteOffset
  if skipDay then t + minutesPerDay else t

/-- A `ScheduledPost` row (`app/models/social_account.py`), restricted to the
columns the embedded code reads or writes.  `retry_count` is stored as a string
in the ORM and parsed with `int(...)` at each use; it is a `Nat` here. -/
structure ScheduledPost where
  id : Nat
  accountId : Nat
  contentId : Nat
  scheduledTime : Int
  status : PostStatus
  retryCount : Nat
  errorMessage : Option String
  publishedAt : Option Int
  platformPostId : Option String
  platformUrl : Option String
deriving DecidableEq

/-- A convenience constructor for a fresh pending post as `schedule_batch_posts`
creates it (`status="pending"`, zero retries, no publishing result yet). -/
def mkPendingPost (id accountId contentId : Nat) (scheduledTime : Int) : ScheduledPost :=
  ⟨id, accountId, contentId, scheduledTime, .pending, 0, none, none, none, none⟩

/-- The query at `smart_scheduler.py:168-171`: the latest `pending`/`published`
post of the account (`order_by(scheduled_time.desc()).first()`), reduced to its
`scheduled_time`.  `SessionLocal` is built with `autoflush=False`
(`app/database.py:65`) and `schedule_batch_posts` neither flushes nor commits
before the end of its loop, so this query sees only rows already flushed to the
database — never the posts added earlier in the same batch.  `flushed` is that
database content, already filtered to the account being scheduled. -/
def lastScheduledTime (flushed : List ScheduledPost) : Option Int :=
  (flushed.filter
      (fun p => p.status = PostStatus.pending ∨ p.status = PostStatus.published)).foldl
    (fun acc p =>
      match acc with
      | none => some p.scheduledTime
      | some t => some (max t p.scheduledTime))
    none

/-- The random draws consumed by one `schedule_batch_posts` run, one triple per
loop iteration: the optimal-time minute (`randint(0,59)`), the jitter offset
(`randint(-30,30)`) and the 10% skip-a-day coin. -/
structure SchedRand where
  minute : Nat → Nat
  minuteOffset : Nat → Int
  skipDay : Nat → Bool

/-- The loop body state of `schedule_batch_posts`: emitted times, in order. -/
def scheduleLoop (platform : Platform) (tzOff : Int) (flushed : List ScheduledPost)
    (useRand : Bool) (rand : SchedRand) :
    Nat → Nat → Int → Nat → List Int
  | _, 0, _, _ => []
  | idx, remaining + 1, currentTime, postsToday =>
    let (currentTime, postsToday) :=
      if postsToday ≥ maxPostsPerDay platform then
        (dayFloor currentTime + minutesPerDay, 0)
      else (currentTime, postsToday)
    let optimal := getOptimalPostingTime platform tzOff currentTime (rand.minute idx)
    let optimal :=
      if useRand then
        applyPatternRandomization optimal (rand.minuteOffset idx) (rand.skipDay idx)
      else optimal
    let optimal :=
      match lastScheduledTime flushed with
      | some t =>
        let minTime := t + (minIntervalHours platform : Int) * 60
        if optimal < minTime then minTime else optimal
      | none => optimal
    optimal :: scheduleLoop platform tzOff flushed useRand rand (idx + 1) remaining optimal (postsToday + 1)

/-- `SmartSchedulerService.schedule_batch_posts`
(`app/services/smart_scheduler.py:100-206`), returning the emitted
`scheduled_time`s in order.  `n` is `len(content_piece_ids)`; `now` is the
`datetime.utcnow()` read for the today-window count; `flushed` is the database
state visible to the session's queries (see `lastScheduledTime`). -/
def scheduleBatchPosts (platform : Platform) (tzOff : Int) (flushed : List ScheduledPost)
    (n : Nat) (startDate now : Int) (useRand : Bool) (rand : SchedRand) : List Int :=
  let todayStart := dayFloor now
  let existingToday :=
    (flushed.filter (fun p =>
        p.status = PostStatus.pending ∧
        todayStart ≤ p.scheduledTime ∧ p.scheduledTime < todayStart + minutesPerDay)).length
  scheduleLoop platform tzOff flushed useRand rand 0 n startDate existingToday

/-- `SmartSchedulerService.reschedule_failed_post`
(`app/services/smart_scheduler.py:232-271`).  `retryDelayHours` is the
`retry_delay_hours` argument (the callers use the default 2). -/
def rescheduleFailedPost (post : ScheduledPost) (now retryDelayHours : Int) : ScheduledPost :=
  if post.retryCount ≥ 3 then
    { post with status := .failed }
  else
    let backoffMultiplier : Int := 2 ^ post.retryCount
    let retryDelay := retryDelayHours * backoffMultiplier
    { post with
      scheduledTime := now + retryDelay * 60
      retryCount := post.retryCount + 1
      status := .pending }

/-- A zeroed random stream: minute draw 0, no jitter (used for concrete runs
with `use_pattern_randomization=False`, where the jitter fields are unread). -/
def zeroRand : SchedRand := ⟨fun _ => 0, fun _ => 0, fun _ => false⟩

/-- Content tiers (`app/services/template_library.py`, `class TemplateTier`):
capa1 safe, capa2 suggestive, capa3 explicit. -/
inductive Tier
  | capa1
  | capa2
  | capa3
deriving DecidableEq

/-- One `CONTENT_TEMPLATES` catalog entry, restricted to the fields
`get_tier_distribution` inspects: `id` and `tier`.  The presentation fields
(`category`, `prompt_template`, `pose_description`, `lighting`, `angle`,
`tags`) are never read by it; Python compares whole dicts in
`t not in selected`, and all 50 entries differ already in `id`. -/
structure Template where
  id : String
  tier : Tier
deriving DecidableEq

/-- The 50-entry `CONTENT_TEMPLATES` catalog, ids and tiers transcribed from
`app/services/template_library.py:32-583`. -/
def contentTemplates : List Template := [
  ⟨"FIT-001", .capa1⟩,
  ⟨"FIT-002", .capa1⟩,
  ⟨"FIT-003", .capa1⟩,
  ⟨"FIT-004", .capa2⟩,
  ⟨"FIT-005", .capa1⟩,
  ⟨"FIT-006", .capa1⟩,
  ⟨"FIT-007", .capa2⟩,
  ⟨"FIT-008", .capa1⟩,
  ⟨"FIT-009", .capa1⟩,
  ⟨"FIT-010", .capa2⟩,
  ⟨"LIFE-001", .capa1⟩,
  ⟨"LIFE-002", .capa1⟩,
  ⟨"LIFE-003", .capa1⟩,
  ⟨"LIFE-004", .capa1⟩,
  ⟨"LIFE-005", .capa1⟩,
  ⟨"LIFE-006", .capa1⟩,
  ⟨"LIFE-007", .capa1⟩,
  ⟨"LIFE-008", .capa1⟩,
  ⟨"LIFE-009", .capa1⟩,
  ⟨"LIFE-010", .capa1⟩,
  ⟨"GLAM-001", .capa2⟩,
  ⟨"GLAM-002", .capa2⟩,
  ⟨"GLAM-003", .capa2⟩,
  ⟨"GLAM-004", .capa2⟩,
  ⟨"GLAM-005", .capa2⟩,
  ⟨"GLAM-006", .capa3⟩,
  ⟨"GLAM-007", .capa2⟩,
  ⟨"GLAM-008", .capa2⟩,
  ⟨"GLAM-009", .capa2⟩,
  ⟨"GLAM-010", .capa2⟩,
  ⟨"BCH-001", .capa2⟩,
  ⟨"BCH-002", .capa1⟩,
  ⟨"BCH-003", .capa2⟩,
  ⟨"BCH-004", .capa2⟩,
  ⟨"BCH-005", .capa2⟩,
  ⟨"BCH-006", .capa2⟩,
  ⟨"BCH-007", .capa1⟩,
  ⟨"BCH-008", .capa2⟩,
  ⟨"URB-001", .capa1⟩,
  ⟨"URB-002", .capa1⟩,
  ⟨"URB-003", .capa1⟩,
  ⟨"URB-004", .capa1⟩,
  ⟨"URB-005", .capa1⟩,
  ⟨"URB-006", .capa1⟩,
  ⟨"NAT-001", .capa1⟩,
  ⟨"NAT-002", .capa1⟩,
  ⟨"NAT-003", .capa1⟩,
  ⟨"NAT-004", .capa1⟩,
  ⟨"NAT-005", .capa1⟩,
  ⟨"NAT-006", .capa1⟩
]

/-- `TemplateLibrary.get_by_tier`. -/
def getByTier (tier : Tier) : List Template :=
  contentTemplates.filter (fun t => t.tier = tier)

/-- `int(count * ratio)` (`template_library.py:669-671`): Python `int()`
truncates toward zero, which equals the floor for the non-negative counts and
ratios in play; float ratio literals are modelled as exact rationals. -/
def ratioCount (count : Nat) (r : ℚ) : Nat := (⌊(count : ℚ) * r⌋).toNat

/-- The `while len(selected) < count` padding loop of `get_tier_distribution`
(`template_library.py:685-689`): append a capa1 template not already selected
until `count` is reached or none remain.  The loop adds one element per
iteration and stops at `count`, so `count` units of fuel always suffice (the
fuel only makes the recursion structural).  `random.choice(remaining)` is
modelled as the first remaining element; the properties proved below depend
only on how many templates of which tier are appended, which is the same for
every choice. -/
def padFill : Nat → List Template → Nat → List Template → List Template
  | 0, _, _, selected => selected
  | fuel + 1, capa1Pool, count, selected =>
    if selected.length < count then
      match capa1Pool.filter (fun t => t ∉ selected) with
      | [] => selected
      | r :: _ => padFill fuel capa1Pool count (selected ++ [r])
    else selected

/-- `TemplateLibrary.get_tier_distribution` (`template_library.py:648-691`).
`random.sample(pool, k)` picks `k` distinct elements of `pool`; it is modelled
as the first `k` — each pool is tier-homogeneous, so the tier counts below are
sample-independent. -/
def getTierDistribution (count : Nat) (r1 r2 r3 : ℚ) : List Template :=
  let capa1Count := ratioCount count r1
  let capa2Count := ratioCount count r2
  let capa3Count := ratioCount count r3
  let capa1Templates := getByTier .capa1
  let capa2Templates := getByTier .capa2
  let capa3Templates := getByTier .capa3
  let selected :=
    capa1Templates.take (min capa1Count capa1Templates.length) ++
    capa2Templates.take (min capa2Count capa2Templates.length) ++
    capa3Templates.take (min capa3Count capa3Templates.length)
  (padFill count capa1Templates count selected).take count

/-- Safety ratings (`app/services/content_safety.py`, `class SafetyRating`):
safe → capa1, suggestive → capa2, borderline → capa3, rejected → dropped. -/
inductive SafetyRating
  | safe
  | suggestive
  | borderline
  | rejected
deriving DecidableEq

/-- One `check_image_safety` verdict as the pipeline consumes it: the rating
plus the optional `access_tier` override (`content_safety.py`). -/
structure SafetyResult where
  rating : SafetyRating
  accessTier : Option Tier
deriving DecidableEq

/-- The outcome of one successful `generate_image_with_lora` call
(`lora_inference.py:64-121`), reduced to the field the batch loop reads. -/
structure GenResult where
  imageUrl : String
deriving DecidableEq

/-- A `ContentPiece` row under construction in the batch pipeline
(`app/models/content_piece.py`), restricted to the fields the embedded stages
read or write; `promptIndex` is `metadata["prompt_index"]` and `template` is
`metadata["template"]`. -/
structure ContentPiece where
  accessTier : Tier
  url : String
  promptIndex : Nat
  template : Option Template
  hookText : Option String
  safetyRating : Option SafetyRating
deriving DecidableEq

/-- The result-processing loop of `batch_generate_images`
(`lora_inference.py:180-203`): `for idx, result in enumerate(results)` skips
failed slots (`continue`) and turns each surviving result into a
`ContentPiece` with default tier capa1 and `metadata["prompt_index"] = idx`.
`s` is the enumeration offset, 0 at the top-level call. -/
def batchGenAux (s : Nat) : List (Except String GenResult) → List ContentPiece
  | [] => []
  | .error _ :: rest => batchGenAux (s + 1) rest
  | .ok r :: rest =>
      { accessTier := .capa1, url := r.imageUrl, promptIndex := s,
        template := none, hookText := none, safetyRating := none } ::
        batchGenAux (s + 1) rest

/-- `LoRAInferenceEngine.batch_generate_images` (`lora_inference.py:123-203`)
after the semaphore-bounded gather: `results` holds, per prompt index, either
the generation result or the exception captured by `return_exceptions=True`. -/
def batchGenerateImages (results : List (Except String GenResult)) : List ContentPiece :=
  batchGenAux 0 results

/-- One returned item dict of `_generate_images` (`batch_processor.py:392-399`):
the mutated piece together with the positionally zipped template (the
`"prompt"` entry carries no further information for the properties below). -/
structure BatchItem where
  piece : ContentPiece
  template : Template
deriving DecidableEq

/-- The generation-and-pairing part of `BatchProcessor._generate_images`
(`batch_processor.py:370-399`): one generation task per template (`gen i` is
the indexed call outcome), then the surviving pieces are zipped positionally
against the unshortened template list, both in the metadata/tier-assignment
loop (line 379) and in the returned item dicts (line 392).  The prompt strings
built from the template fields do not affect the pairing and are left out. -/
def pairedItems (templates : List Template)
    (gen : Nat → Except String GenResult) : List BatchItem :=
  let results := (List.range templates.length).map gen
  let pieces := batchGenerateImages results
  let pieces := (pieces.zip templates).map fun pt =>
    ({ pt.1 with template := some pt.2, accessTier := pt.2.tier }, pt.2)
  pieces.map fun pt => ⟨pt.1, pt.2⟩

/-- `PromptEnhancer.enhance_prompts` (`prompt_enhancer.py:56-68`) composed
with `enhance_prompt` (`prompt_enhancer.py:18-54`): a sequential per-item loop
with NO try/except anywhere on the path.  `enhance i` is the outcome of the
`i`-th `enhance_prompt` call — `Except.ok` covers both the no-client
base-prompt pass-through and a successful OpenAI rewrite, `Except.error` an
exception raised by the OpenAI request, which propagates out of the loop at
the first failing index.  The rewritten strings only feed the generation
prompts, which the embedding already abstracts into the `gen` oracle, so the
loop's observable effect here is success or the first exception. -/
def enhanceLoop (enhance : Nat → Except String String) :
    List Nat → Except String Unit
  | [] => Except.ok ()
  | i :: rest =>
      match enhance i with
      | .ok _ => enhanceLoop enhance rest
      | .error e => Except.error e

/-- `BatchProcessor._generate_images` (`batch_processor.py:325-399`) on the
template path (no custom prompts or tiers): builds one prompt per template,
then — while `generation_config.get("enhance_prompts", True)` is enabled,
which it is by default — rewrites them through
`prompt_enhancer.enhance_prompts` (`batch_processor.py:352-368`), a call with
no `try/except`, so its first OpenAI exception propagates out of the stage;
on success the pipeline continues with the generation and positional pairing
of `pairedItems`. -/
def generateImagesStage (enhanceFlag : Bool)
    (enhance : Nat → Except String String) (templates : List Template)
    (gen : Nat → Except String GenResult) : Except String (List BatchItem) :=
  match (if enhanceFlag then enhanceLoop enhance (List.range templates.length)
    else Except.ok ()) with
  | .error e => Except.error e
  | .ok _ => Except.ok (pairedItems templates gen)

/-- A small concrete template list for exercising the pairing theorem. -/
def sampleTemplates : List Template :=
  [⟨"TPL-A", .capa1⟩, ⟨"TPL-B", .capa2⟩, ⟨"TPL-C", .capa3⟩]

/-- A generator oracle whose call at index 1 fails. -/
def sampleGen : Nat → Except String GenResult :=
  fun i => if i = 1 then .error "generation failed" else .ok ⟨"https://replicate/img"⟩

/-- The phase of one generation task inside `batch_generate_images`
(`lora_inference.py:151-178`): created but still waiting to acquire the
semaphore in `generate_with_limit`, holding one of the semaphore's slots while
the generator call runs, or finished with its own per-slot outcome —
`asyncio.gather(..., return_exceptions=True)` stores a task's exception in its
own result slot instead of cancelling the sibling tasks. -/
inductive TaskPhase
  | waiting
  | running
  | done (result : Except String GenResult)

/-- Whether a task currently holds a semaphore slot. -/
def isRunning : TaskPhase → Bool
  | .running => true
  | _ => false

/-- The number of in-flight generator calls. -/
def inFlight (tasks : List TaskPhase) : Nat :=
  tasks.countP isRunning

/-- One scheduler step of the bounded gather (`lora_inference.py:168-178`):
`async with semaphore` lets a waiting task start only while fewer than `limit`
tasks are in flight (`asyncio.Semaphore(limit)`; the source fixes the limit at
5), and a running task may finish with its own success or exception, recorded
in its slot alone. -/
inductive GenStep (limit : Nat) : List TaskPhase → List TaskPhase → Prop
  | start (tasks : List TaskPhase) (i : Nat) (hi : tasks.get? i = some .waiting)
      (hfree : inFlight tasks < limit) :
      GenStep limit tasks (tasks.set i .running)
  | finish (tasks : List TaskPhase) (i : Nat) (r : Except String GenResult)
      (hi : tasks.get? i = some .running) :
      GenStep limit tasks (tasks.set i (.done r))

/-- All interleavings of the bounded gather from a given initial state. -/
inductive GenReach (limit : Nat) (init : List TaskPhase) : List TaskPhase → Prop
  | refl : GenReach limit init init
  | tail {s s' : List TaskPhase} :
      GenReach limit init s → GenStep limit s s' → GenReach limit init s'

/-- The initial state of the Generate stage: one waiting task per prompt. -/
def initTasks (n : Nat) : List TaskPhase := List.replicate n .waiting

/-- `BatchProcessorConfig` (`batch_processor.py:26-49`), restricted to the
fields the embedded pipeline reads.  `numPieces` only feeds the template
request and the step-4 rejected metric; the stage flags mirror
`include_hooks`, `safety_check`, `upload_to_storage`; `enhancePrompts`
mirrors `generation_config.get("enhance_prompts", True)` read inside
`_generate_images` (`batch_processor.py:352`), true by default. -/
structure BatchConfig where
  numPieces : Nat
  includeHooks : Bool
  safetyCheck : Bool
  uploadToStorage : Bool
  enhancePrompts : Bool
deriving DecidableEq

/-- `BatchProcessor._generate_hooks` (`batch_processor.py:401-466`): per-item
try/except; a successful call stores the first hook variation
(`hooks[0]`), an empty hook list leaves the piece unchanged, and an exception
sets `hook_text = None` and moves on to the next item. -/
def generateHooksStage (hookOracle : Nat → Except String (List String))
    (items : List BatchItem) : List BatchItem :=
  items.enum.map fun p =>
    match hookOracle p.1 with
    | .ok (h :: _) => { p.2 with piece := { p.2.piece with hookText := some h } }
    | .ok [] => p.2
    | .error _ => { p.2 with piece := { p.2.piece with hookText := none } }

/-- The per-slot conversion in `ContentSafetyService.batch_check_safety`
(`content_safety.py:266-282`): the gather runs with
`return_exceptions=True` and a slot's exception becomes a `REJECTED` verdict
for that slot only. -/
def safetyVerdict (r : Except String SafetyResult) : SafetyResult :=
  match r with
  | .ok v => v
  | .error _ => { rating := .rejected, accessTier := none }

/-- `ContentSafetyService.batch_check_safety` for `n` submitted items, with
`safetyOracle i` the outcome of the `i`-th `check_image_safety` call. -/
def batchCheckSafety (safetyOracle : Nat → Except String SafetyResult)
    (n : Nat) : List SafetyResult :=
  (List.range n).map fun i => safetyVerdict (safetyOracle i)

/-- `BatchProcessor._safety_check` (`batch_processor.py:468-534`): zips the
items with their verdicts, drops `REJECTED` items (`continue`), stores the
rating on the survivors and applies the optional `access_tier` override
(`if safety.get("access_tier")`). -/
def safetyCheckStage (safetyOracle : Nat → Except String SafetyResult)
    (items : List BatchItem) : List BatchItem :=
  (items.zip (batchCheckSafety safetyOracle items.length)).filterMap fun p =>
    if p.2.rating = SafetyRating.rejected then none
    else some { p.1 with piece := { p.1.piece with
      safetyRating := some p.2.rating,
      accessTier := p.2.accessTier.getD p.1.piece.accessTier } }

/-- `BatchProcessor._upload_to_storage` (`batch_processor.py:536-648`):
per-item try/except; an item with an empty URL or one already under the R2
public URL is skipped, a successful upload replaces the URL with the returned
R2 URL, and an exception keeps the original URL (the item is never dropped).
The data-URL decoding and HTTP fetch live inside the oracle. -/
def uploadToStorageStage (r2PublicUrl : String)
    (uploadOracle : Nat → Except String String) (items : List BatchItem) :
    List BatchItem :=
  items.enum.map fun p =>
    if p.2.piece.url = "" then p.2
    else if r2PublicUrl ≠ "" ∧ (p.2.piece.url.startsWith r2PublicUrl) = true then p.2
    else
      match uploadOracle p.1 with
      | .ok r2url => { p.2 with piece := { p.2.piece with url := r2url } }
      | .error _ => p.2

/-- `BatchProcessor._save_to_database` (`batch_processor.py:650-687`): per-item
try/except around `db.add`/`db.commit`; a failed commit rolls back and skips
that piece only, pieces already saved are unaffected. -/
def saveToDatabaseStage (saveOk : Nat → Bool) (items : List BatchItem) :
    List ContentPiece :=
  items.enum.filterMap fun p =>
    if saveOk p.1 then some p.2.piece else none

/-- The tier/hook part of `BatchProcessor._calculate_statistics`
(`batch_processor.py:689-725`).  The float cost estimate and the safety-rating
histogram are omitted: the claims below concern the counts. -/
structure BatchStats where
  totalPieces : Nat
  tierCapa1 : Nat
  tierCapa2 : Nat
  tierCapa3 : Nat
  withHooks : Nat
deriving DecidableEq

/-- `BatchProcessor._calculate_statistics` on the saved pieces. -/
def calculateStatistics (pieces : List ContentPiece) : BatchStats :=
  { totalPieces := pieces.length
    tierCapa1 := pieces.countP (fun p => p.accessTier = Tier.capa1)
    tierCapa2 := pieces.countP (fun p => p.accessTier = Tier.capa2)
    tierCapa3 := pieces.countP (fun p => p.accessTier = Tier.capa3)
    withHooks := pieces.countP (fun p => p.hookText.isSome) }

/-- The returned dict of `process_batch` (`batch_processor.py:232-247`)
together with the step metrics the run records: `generatedCount` is step 2's
`result_count`, `safetyRejectedCount` step 4's `rejected_count` (computed in
the source as `config.num_pieces - len(content_pieces)` after filtering), and
`savedCount` step 6's `result_count`. -/
structure BatchResult where
  success : Bool
  totalPieces : Nat
  stats : BatchStats
  generatedCount : Nat
  safetyRejectedCount : Nat
  savedCount : Nat
deriving DecidableEq

/-- `BatchProcessor.process_batch` (`batch_processor.py:62-255`).  `templates`
is the Select-stage output (`_select_templates`: the custom-prompt pass-through
or `getTierDistribution` composed with a pure niche-preference merge that only
swaps same-tier template identities and cannot raise; an empty pool yields an
empty list, not an exception); the per-item call outcomes of the later stages
arrive through the oracles.  The `try/except` around the stages
(`batch_processor.py:248-255`) logs and re-raises whatever escapes them,
represented by the `Except` result type.  Every embedded stage traps its
per-item failures itself except the prompt-enhancement call inside
`_generate_images`, which has no handler, so its exception escapes
`process_batch` — the one raise path of the body below. -/
def processBatch (cfg : BatchConfig) (templates : List Template)
    (enhance : Nat → Except String String)
    (gen : Nat → Except String GenResult)
    (hookOracle : Nat → Except String (List String))
    (safetyOracle : Nat → Except String SafetyResult)
    (r2PublicUrl : String) (uploadOracle : Nat → Except String String)
    (saveOk : Nat → Bool) : Except String BatchResult :=
  match generateImagesStage cfg.enhancePrompts enhance templates gen with
  | .error e => Except.error e
  | .ok generated =>
    let hooked := if cfg.includeHooks then generateHooksStage hookOracle generated else generated
    let checked := if cfg.safetyCheck then safetyCheckStage safetyOracle hooked else hooked
    let stored :=
      if cfg.uploadToStorage then uploadToStorageStage r2PublicUrl uploadOracle checked
      else checked
    let saved := saveToDatabaseStage saveOk stored
    Except.ok
      { success := true
        totalPieces := saved.length
        stats := calculateStatistics saved
        generatedCount := generated.length
        safetyRejectedCount := cfg.numPieces - checked.length
        savedCount := saved.length }

/-- Account health states (`app/models/social_account.py`, `class AccountStatus`). -/
inductive AccountStatus
  | active
  | suspended
  | shadowbanned
  | rateLimited
  | disconnected
deriving DecidableEq

/-- The `.value` strings of `AccountStatus`, used in the unhealthy-account
error message. -/
def accountStatusValue : AccountStatus → String
  | .active => "active"
  | .suspended => "suspended"
  | .shadowbanned => "shadowbanned"
  | .rateLimited => "rate_limited"
  | .disconnected => "disconnected"

/-- A `SocialAccount` row (`app/models/social_account.py`), restricted to the
columns the dispatcher reads or writes.  `health_score` is stored as a string
and parsed with `int()`; it is a `Nat` here. -/
structure Account where
  id : Nat
  platform : Platform
  status : AccountStatus
  healthScore : Nat
  lastPostAt : Option Int
deriving DecidableEq

/-- `SocialAccount.is_healthy` (`social_account.py:81-83`). -/
def Account.isHealthy (a : Account) : Bool :=
  decide (a.status = AccountStatus.active ∧ 70 ≤ a.healthScore)

/-- `ScheduledPost.can_retry` (`social_account.py:130-132`): note that it
requires the status to already be `"failed"`. -/
def ScheduledPost.canRetry (p : ScheduledPost) : Bool :=
  decide (p.status = PostStatus.failed ∧ p.retryCount < 3)

/-- The content piece fields `publish_social_post` reads. -/
structure Content where
  url : String
  hookText : Option String
deriving DecidableEq

/-- A successful `publish_with_retry` result (`post_id`, `platform_url`). -/
structure PubSuccess where
  postId : Option String
  platformUrl : Option String
deriving DecidableEq

/-- The database state the dispatcher reads and mutates. -/
structure DispatchState where
  posts : List ScheduledPost
  accounts : List Account
deriving DecidableEq

/-- `db.query(ScheduledPost).filter(id == ...).first()`. -/
def findPost (posts : List ScheduledPost) (postId : Nat) : Option ScheduledPost :=
  posts.find? (fun p => p.id = postId)

/-- `db.query(SocialAccount).filter(id == ...).first()`. -/
def findAccount (accounts : List Account) (accountId : Nat) : Option Account :=
  accounts.find? (fun a => a.id = accountId)

/-- In-place mutation of the row with the given id followed by `db.commit()`. -/
def updatePost (posts : List ScheduledPost) (postId : Nat)
    (f : ScheduledPost → ScheduledPost) : List ScheduledPost :=
  posts.map fun p => if p.id = postId then f p else p

/-- In-place mutation of the account row followed by `db.commit()`. -/
def updateAccount (accounts : List Account) (accountId : Nat)
    (f : Account → Account) : List Account :=
  accounts.map fun a => if a.id = accountId then f a else a

/-- The outcome of one `publish_social_post` invocation: the returned dict, or
the exception the task re-raises. -/
inductive DispatchOutcome
  | published (postId platformUrl : Option String)
  | skipped (reason : String)
  | failedUnhealthy
  | raisedError (msg : String)
deriving DecidableEq

/-- Mark a post failed with a terminal error message
(`scheduled_post.status = "failed"; scheduled_post.error_message = ...`). -/
def markFailedWith (msg : String) (p : ScheduledPost) : ScheduledPost :=
  { p with status := .failed, errorMessage := some msg }

/-- The success-path post update (`workers/tasks.py:423-427`). -/
def markPublished (r : PubSuccess) (now : Int) (p : ScheduledPost) : ScheduledPost :=
  { p with
    status := .published
    publishedAt := some now
    platformPostId := r.postId
    platformUrl := r.platformUrl }

/-- `social_account.last_post_at = datetime.utcnow()` (`tasks.py:430`). -/
def stampLastPost (now : Int) (a : Account) : Account :=
  { a with lastPostAt := some now }

/-- The `except` handler of `publish_social_post` (`workers/tasks.py:444-463`):
re-query the post; if `can_retry()` holds, delegate to
`smart_scheduler.reschedule_failed_post` (exponential backoff); otherwise mark
the post failed with the terminal error message.  `can_retry` demands
`status == "failed"`, which decides claim C6. -/
def exceptBranch (st : DispatchState) (postId : Nat) (msg : String) (now : Int) :
    DispatchState :=
  match findPost st.posts postId with
  | none => st
  | some post =>
    if post.canRetry then
      { st with posts := updatePost st.posts postId (fun p => rescheduleFailedPost p now 2) }
    else
      { st with posts := updatePost st.posts postId (markFailedWith msg) }

/-- `publish_social_post` (`workers/tasks.py:337-466`) for one scheduled post:
look the post up; skip it if it is no longer pending; load account and content
(a missing row raises, landing in the except handler); an unhealthy account
marks the post failed with an `"Account unhealthy (status: ...)"` message and
returns a failed dict; an unsupported platform raises; otherwise
`publish_with_retry`'s outcome (`publish`) either publishes the post and
stamps the account's `last_post_at`, or raises into the except handler.
Token decryption and caption assembly are pure and folded into the publish
oracle. -/
def publishStep (st : DispatchState) (postId : Nat) (now : Int)
    (contentOf : Nat → Option Content) (publish : Except String PubSuccess) :
    DispatchState × DispatchOutcome :=
  match findPost st.posts postId with
  | none => (st, .raisedError "Scheduled post not found")
  | some post =>
    if post.status ≠ PostStatus.pending then
      (st, .skipped "Post already processed")
    else
      match findAccount st.accounts post.accountId with
      | none => (exceptBranch st postId "Social account not found" now,
          .raisedError "Social account not found")
      | some account =>
        match contentOf post.contentId with
        | none => (exceptBranch st postId "Content piece not found" now,
            .raisedError "Content piece not found")
        | some _ =>
          if account.isHealthy = false then
            ({ st with posts := updatePost st.posts postId (markFailedWith
                ("Account unhealthy (status: " ++
                  accountStatusValue account.status ++ ")")) },
              .failedUnhealthy)
          else if account.platform ≠ Platform.instagram ∧
              account.platform ≠ Platform.tiktok then
            (exceptBranch st postId "Platform not supported" now,
              .raisedError "Platform not supported")
          else
            match publish with
            | .ok r =>
              ({ posts := updatePost st.posts postId (markPublished r now)
                 accounts := updateAccount st.accounts post.accountId (stampLastPost now) },
                .published r.postId r.platformUrl)
            | .error e => (exceptBranch st postId e now, .raisedError e)

/-- Insertion into a list kept ascending by `scheduled_time`. -/
def insertByTime (p : ScheduledPost) : List ScheduledPost → List ScheduledPost
  | [] => [p]
  | q :: rest =>
    if p.scheduledTime ≤ q.scheduledTime then p :: q :: rest
    else q :: insertByTime p rest

/-- `order_by(ScheduledPost.scheduled_time)` as a stable insertion sort. -/
def sortByTime : List ScheduledPost → List ScheduledPost
  | [] => []
  | p :: rest => insertByTime p (sortByTime rest)

/-- `SmartSchedulerService.get_next_posts_to_publish`
(`smart_scheduler.py:273-296`): pending posts due at `now`, ordered by
`scheduled_time`, first `limit` of them. -/
def getNextPostsToPublish (posts : List ScheduledPost) (now : Int) (limit : Nat) :
    List ScheduledPost :=
  (sortByTime (posts.filter
    (fun p => p.status = PostStatus.pending ∧ p.scheduledTime ≤ now))).take limit

/-- Modelled from the spec: `PublishDispatcher.sweep` — the periodic driver
that selects due posts and dispatches each is not in the repository's worker
code (§4.6 of the spec specifies select-then-dispatch on a fixed period); the
selection (`get_next_posts_to_publish`) and the per-post dispatch
(`publish_social_post`) composed here are embedded from the source above. -/
def sweep (st : DispatchState) (now : Int) (limit : Nat)
    (contentOf : Nat → Option Content) (publishOf : Nat → Except String PubSuccess) :
    DispatchState × List DispatchOutcome :=
  (getNextPostsToPublish st.posts now limit).foldl
    (fun acc p =>
      let r := publishStep acc.1 p.id now contentOf (publishOf p.id)
      (r.1, acc.2 ++ [r.2]))
    (st, [])

/-- The concrete state for the unhealthy-account counterexample: one pending
due post and its account with health score 50 (below the 70 threshold). -/
def c5State : DispatchState :=
  { posts := [mkPendingPost 7 1 100 0]
    accounts := [⟨1, Platform.instagram, AccountStatus.active, 50, none⟩] }

/-- The concrete state for the failed-publish case: one pending due post with
retry budget untouched, and a perfectly healthy account. -/
def c6State : DispatchState :=
  { posts := [mkPendingPost 7 1 100 0]
    accounts := [⟨1, Platform.instagram, AccountStatus.active, 100, none⟩] }

theorem hourOfDay_nonneg (t : Int) : 0 ≤ hourOfDay t := by
  unfold hourOfDay; omega

theorem hourOfDay_lt (t : Int) : hourOfDay t < 24 := by
  unfold hourOfDay; omega

theorem hourOfDay_replaceHourMinute (u : Int) {h m : Int} (h0 : 0 ≤ h) (h24 : h < 24)
    (m0 : 0 ≤ m) (m60 : m < 60) : hourOfDay (replaceHourMinute u h m) = h := by
  unfold hourOfDay replaceHourMinute dayFloor; omega

theorem dayFloor_replaceHourMinute (u : Int) {h m : Int} (h0 : 0 ≤ h) (h24 : h < 24)
    (m0 : 0 ≤ m) (m60 : m < 60) : dayFloor (replaceHourMinute u h m) = dayFloor u := by
  unfold replaceHourMinute dayFloor; omega

theorem optimalHours_lt_24 (p : Platform) : ∀ h ∈ optimalHours p, h < 24 := by
  cases p <;> decide

theorem optimalHours_sorted (p : Platform) : (optimalHours p).Sorted (· ≤ ·) := by
  cases p <;> decide

theorem optimalHours_ne_nil (p : Platform) : optimalHours p ≠ [] := by
  cases p <;> decide

/-- In a `≤`-sorted list, the head of `filter (· > c)` is the least element above
`c`: it belongs to the list, exceeds `c`, and is below every list element above
`c`. -/
theorem filter_gt_head_least {l : List Nat} (hs : l.Sorted (· ≤ ·)) (c : Int)
    {x : Nat} {xs : List Nat}
    (hf : l.filter (fun (h : Nat) => decide ((h : Int) > c)) = x :: xs) :
    x ∈ l ∧ (x : Int) > c ∧ ∀ h ∈ l, (h : Int) > c → x ≤ h := by
  induction l with
  | nil => simp at hf
  | cons a l ih =>
    rw [List.sorted_cons] at hs
    by_cases ha : (a : Int) > c
    · rw [List.filter_cons_of_pos (by simpa using ha)] at hf
      obtain ⟨rfl, -⟩ := List.cons.inj hf
      refine ⟨List.mem_cons_self _ _, ha, ?_⟩
      intro h hh _
      rcases List.mem_cons.mp hh with rfl | hh
      · exact le_refl _
      · exact hs.1 h hh
    · rw [List.filter_cons_of_neg (by simpa using ha)] at hf
      obtain ⟨hx, hxc, hmin⟩ := ih hs.2 hf
      refine ⟨List.mem_cons_of_mem _ hx, hxc, ?_⟩
      intro h hh hhc
      rcases List.mem_cons.mp hh with rfl | hh
      · exact absurd hhc ha
      · exact hmin h hh hhc

/-- Claim C1 (code bug): `schedule_batch_posts` is supposed to keep any two
consecutive posts of one account at least the platform minimum interval apart
by clamping against the latest pending/published post, but the clamp query runs
in a session with `autoflush=False` and nothing is flushed before the final
commit, so posts created earlier in the same batch are invisible to it.
Scheduling 2 Instagram posts from 2024-01-01T00:00Z (UTC account, empty
database, randomization off, minute draw 0) yields 13:00 and 14:00 — 60
minutes apart, far below the 4-hour (240-minute) Instagram minimum. -/
theorem C1_same_batch_interval_violated :
    scheduleBatchPosts Platform.instagram 0 [] 2 0 0 false zeroRand = [780, 840] ∧
    840 - 780 < (minIntervalHours Platform.instagram : Int) * 60 := by
  constructor
  · rfl
  · decide

/-- Claim C3 (confirmed): `reschedule_failed_post` with `retry_count < 3` moves
`scheduled_time` to `now + retry_delay_hours * 2^retry_count` (2h/4h/8h for the
default base 2), increments `retry_count` and resets the status to `pending`;
with `retry_count ≥ 3` it sets the status to `failed`, leaves `scheduled_time`
and `retry_count` untouched, and every further reschedule call leaves the post
in that terminal state. -/
theorem C3_reschedule_backoff (post : ScheduledPost) (now d : Int) :
    (post.retryCount < 3 →
      rescheduleFailedPost post now d =
        { post with
            scheduledTime := now + d * 2 ^ post.retryCount * 60
            retryCount := post.retryCount + 1
            status := .pending }) ∧
    (post.retryCount ≥ 3 →
      (rescheduleFailedPost post now d).status = .failed ∧
      (rescheduleFailedPost post now d).scheduledTime = post.scheduledTime ∧
      (rescheduleFailedPost post now d).retryCount = post.retryCount ∧
      ∀ now' d', rescheduleFailedPost (rescheduleFailedPost post now d) now' d' =
          rescheduleFailedPost post now d) := by
  constructor
  · intro hlt
    unfold rescheduleFailedPost
    rw [if_neg (by omega)]
  · intro hge
    unfold rescheduleFailedPost
    rw [if_pos hge]
    refine ⟨rfl, rfl, rfl, fun now' d' => ?_⟩
    rw [if_pos (show ({ post with status := PostStatus.failed } : ScheduledPost).retryCount ≥ 3 from hge)]

/-- Witness for C3 at concrete posts: a first retry of a fresh post with base
2h lands 120 minutes later with status pending, and a post at the retry cap is
marked failed. -/
theorem C3_reschedule_backoff_witness :
    (rescheduleFailedPost (mkPendingPost 1 1 1 0) 0 2).scheduledTime = 120 ∧
    (rescheduleFailedPost { mkPendingPost 1 1 1 0 with retryCount := 3 } 0 2).status = .failed := by
  have h1 := (C3_reschedule_backoff (mkPendingPost 1 1 1 0) 0 2).1 (by decide)
  have h2 := (C3_reschedule_backoff { mkPendingPost 1 1 1 0 with retryCount := 3 } 0 2).2 (by decide)
  exact ⟨by rw [h1]; decide, h2.1⟩

theorem headD_mem {l : List Nat} (h : l ≠ []) (d : Nat) : l.headD d ∈ l := by
  cases l with
  | nil => exact absurd rfl h
  | cons a l => exact List.mem_cons_self a l

theorem getOpt_filter_cons (p : Platform) (tzOff target : Int) (m : Nat) (x : Nat)
    (xs : List Nat)
    (heq : (optimalHours p).filter
      (fun (h : Nat) => decide ((h : Int) > hourOfDay (target + tzOff))) = x :: xs) :
    getOptimalPostingTime p tzOff target m =
      replaceHourMinute (target + tzOff) (x : Int) (m : Int) - tzOff := by
  simp only [getOptimalPostingTime]
  rw [heq]

theorem getOpt_filter_nil (p : Platform) (tzOff target : Int) (m : Nat)
    (heq : (optimalHours p).filter
      (fun (h : Nat) => decide ((h : Int) > hourOfDay (target + tzOff))) = []) :
    getOptimalPostingTime p tzOff target m =
      replaceHourMinute (target + tzOff + minutesPerDay)
        (((optimalHours p).headD 12 : Nat) : Int) (m : Int) - tzOff := by
  simp only [getOptimalPostingTime]
  rw [heq]

/-- Claim C8, counterexample to the scenario clause: scheduling 3 Instagram
posts from 2024-01-01T00:00Z (UTC account, empty database, no jitter, minute
draws 0) yields 13:00, 14:00, 15:00 — consecutive optimal hours 60 minutes
apart, not the claimed ≥ 4-hour gaps, because the min-interval clamp reads only
already-flushed rows (`autoflush=False`) and the database is empty. -/
theorem C8_counterexample :
    scheduleBatchPosts Platform.instagram 0 [] 3 0 0 false zeroRand = [780, 840, 900] ∧
    ¬ (840 - 780 ≥ (minIntervalHours Platform.instagram : Int) * 60 ∧
       900 - 840 ≥ (minIntervalHours Platform.instagram : Int) * 60) := by
  constructor
  · rfl
  · decide

/-- Claim C8 as amended: (1) `get_optimal_posting_time` picks, in the account's
timezone, the smallest listed hour strictly after the cursor's hour-of-day,
rolling to the first listed hour of the next day when none remain; (2) the
3-Instagram-post scenario from 2024-01-01T00:00Z without jitter yields
monotonically increasing times all of whose hours lie in the platform's
optimal-hour list — but at consecutive listed hours (13:xx, 14:xx, 15:xx), so
the gaps stay below the 4-hour minimum interval rather than respecting it. -/
theorem C8_next_hour_rule_and_scenario :
    (∀ (p : Platform) (tzOff target : Int) (m : Nat), m < 60 →
      (∃ h ∈ optimalHours p,
          hourOfDay (getOptimalPostingTime p tzOff target m + tzOff) = (h : Int)) ∧
      ((∃ h ∈ optimalHours p, (h : Int) > hourOfDay (target + tzOff)) →
        dayFloor (getOptimalPostingTime p tzOff target m + tzOff) =
          dayFloor (target + tzOff) ∧
        hourOfDay (getOptimalPostingTime p tzOff target m + tzOff) >
          hourOfDay (target + tzOff) ∧
        ∀ h ∈ optimalHours p, (h : Int) > hourOfDay (target + tzOff) →
          hourOfDay (getOptimalPostingTime p tzOff target m + tzOff) ≤ (h : Int)) ∧
      ((∀ h ∈ optimalHours p, ¬ ((h : Int) > hourOfDay (target + tzOff))) →
        dayFloor (getOptimalPostingTime p tzOff target m + tzOff) =
          dayFloor (target + tzOff) + minutesPerDay ∧
        hourOfDay (getOptimalPostingTime p tzOff target m + tzOff) =
          (((optimalHours p).headD 12 : Nat) : Int))) ∧
    (∀ rand : SchedRand, (∀ i, rand.minute i < 60) →
      scheduleBatchPosts Platform.instagram 0 [] 3 0 0 false rand =
        [780 + (rand.minute 0 : Int), 840 + (rand.minute 1 : Int), 900 + (rand.minute 2 : Int)] ∧
      (780 + (rand.minute 0 : Int) < 840 + rand.minute 1 ∧
       840 + (rand.minute 1 : Int) < 900 + rand.minute 2) ∧
      (hourOfDay (780 + (rand.minute 0 : Int)) ∈ ((13 : Int) :: [14, 15, 17, 18, 19]) ∧
       hourOfDay (840 + (rand.minute 1 : Int)) ∈ ((13 : Int) :: [14, 15, 17, 18, 19]) ∧
       hourOfDay (900 + (rand.minute 2 : Int)) ∈ ((13 : Int) :: [14, 15, 17, 18, 19]))) := by
  constructor
  · intro p tzOff target m hm
    have hm0 : (0 : Int) ≤ (m : Int) := Int.ofNat_nonneg m
    have hm60 : (m : Int) < 60 := by exact_mod_cast hm
    rcases hfe : (optimalHours p).filter
        (fun (h : Nat) => decide ((h : Int) > hourOfDay (target + tzOff))) with _ | ⟨x, xs⟩
    · have hall : ∀ h ∈ optimalHours p, ¬ ((h : Int) > hourOfDay (target + tzOff)) := by
        intro h hh
        have := List.filter_eq_nil_iff.mp hfe h hh
        simpa using this
      have hne := optimalHours_ne_nil p
      have hhead := headD_mem hne 12
      have hh24 : (((optimalHours p).headD 12 : Nat) : Int) < 24 := by
        exact_mod_cast optimalHours_lt_24 p _ hhead
      have hh0 : (0 : Int) ≤ (((optimalHours p).headD 12 : Nat) : Int) :=
        Int.ofNat_nonneg _
      rw [getOpt_filter_nil p tzOff target m hfe]
      have hcanc : replaceHourMinute (target + tzOff + minutesPerDay)
            (((optimalHours p).headD 12 : Nat) : Int) (m : Int) - tzOff + tzOff =
          replaceHourMinute (target + tzOff + minutesPerDay)
            (((optimalHours p).headD 12 : Nat) : Int) (m : Int) := by ring
      rw [hcanc, hourOfDay_replaceHourMinute _ hh0 hh24 hm0 hm60,
        dayFloor_replaceHourMinute _ hh0 hh24 hm0 hm60]
      have hdf : dayFloor (target + tzOff + minutesPerDay) =
          dayFloor (target + tzOff) + minutesPerDay := by
        unfold dayFloor minutesPerDay; omega
      refine ⟨⟨_, hhead, rfl⟩, fun hex => ?_, fun _ => ⟨hdf, rfl⟩⟩
      obtain ⟨h, hh, hhc⟩ := hex
      exact absurd hhc (hall h hh)
    · obtain ⟨hx, hxc, hmin⟩ := filter_gt_head_least (optimalHours_sorted p) _ hfe
      have hx24 : (x : Int) < 24 := by exact_mod_cast optimalHours_lt_24 p x hx
      have hx0 : (0 : Int) ≤ (x : Int) := Int.ofNat_nonneg x
      rw [getOpt_filter_cons p tzOff target m x xs hfe]
      have hcanc : replaceHourMinute (target + tzOff) (x : Int) (m : Int) - tzOff + tzOff =
          replaceHourMinute (target + tzOff) (x : Int) (m : Int) := by ring
      rw [hcanc, hourOfDay_replaceHourMinute _ hx0 hx24 hm0 hm60,
        dayFloor_replaceHourMinute _ hx0 hx24 hm0 hm60]
      refine ⟨⟨x, hx, rfl⟩, fun _ => ⟨rfl, hxc, fun h hh hhc => ?_⟩, fun hall => ?_⟩
      · exact_mod_cast hmin h hh hhc
      · exact absurd hxc (hall x hx)
  · intro rand hrand
    have h0 := hrand 0
    have h1 := hrand 1
    have h2 := hrand 2
    have step : ∀ (idx rem : Nat) (cur : Int) (today : Nat),
        ¬ (today ≥ maxPostsPerDay Platform.instagram) →
        scheduleLoop Platform.instagram 0 [] false rand idx (rem + 1) cur today =
          getOptimalPostingTime Platform.instagram 0 cur (rand.minute idx) ::
            scheduleLoop Platform.instagram 0 [] false rand (idx + 1) rem
              (getOptimalPostingTime Platform.instagram 0 cur (rand.minute idx))
              (today + 1) := by
      intro idx rem cur today h
      conv_lhs => rw [scheduleLoop]
      rw [if_neg h]
      rfl
    have e0 : getOptimalPostingTime Platform.instagram 0 0 (rand.minute 0) =
        780 + rand.minute 0 := by
      have hc : hourOfDay ((0 : Int) + 0) = 0 := by decide
      rw [getOpt_filter_cons Platform.instagram 0 0 (rand.minute 0)
        13 [14, 15, 17, 18, 19] (by rw [hc]; rfl)]
      unfold replaceHourMinute dayFloor; omega
    have e1 : getOptimalPostingTime Platform.instagram 0 (780 + rand.minute 0)
        (rand.minute 1) = 840 + rand.minute 1 := by
      have hc : hourOfDay (780 + (rand.minute 0 : Int) + 0) = 13 := by
        unfold hourOfDay; omega
      rw [getOpt_filter_cons Platform.instagram 0 (780 + rand.minute 0) (rand.minute 1)
        14 [15, 17, 18, 19] (by rw [hc]; rfl)]
      unfold replaceHourMinute dayFloor; omega
    have e2 : getOptimalPostingTime Platform.instagram 0 (840 + rand.minute 1)
        (rand.minute 2) = 900 + rand.minute 2 := by
      have hc : hourOfDay (840 + (rand.minute 1 : Int) + 0) = 14 := by
        unfold hourOfDay; omega
      rw [getOpt_filter_cons Platform.instagram 0 (840 + rand.minute 1) (rand.minute 2)
        15 [17, 18, 19] (by rw [hc]; rfl)]
      unfold replaceHourMinute dayFloor; omega
    have l2 : scheduleLoop Platform.instagram 0 [] false rand 2 1
        (840 + rand.minute 1) 2 = [900 + (rand.minute 2 : Int)] := by
      conv_lhs => rw [show (1 : Nat) = 0 + 1 from rfl]
      rw [step 2 0 (840 + rand.minute 1) 2 (by decide), e2]
      rfl
    have l1 : scheduleLoop Platform.instagram 0 [] false rand 1 2
        (780 + rand.minute 0) 1 = [840 + (rand.minute 1 : Int), 900 + (rand.minute 2 : Int)] := by
      conv_lhs => rw [show (2 : Nat) = 1 + 1 from rfl]
      rw [step 1 1 (780 + rand.minute 0) 1 (by decide), e1, l2]
    have hrun : scheduleBatchPosts Platform.instagram 0 [] 3 0 0 false rand =
        [780 + (rand.minute 0 : Int), 840 + (rand.minute 1 : Int), 900 + (rand.minute 2 : Int)] := by
      unfold scheduleBatchPosts
      simp only [List.filter_nil, List.length_nil]
      conv_lhs => rw [show (3 : Nat) = 2 + 1 from rfl]
      rw [step 0 2 0 0 (by decide), e0, l1]
    refine ⟨hrun, ⟨by omega, by omega⟩, ?_, ?_, ?_⟩
    · have hh : hourOfDay (780 + (rand.minute 0 : Int)) = 13 := by unfold hourOfDay; omega
      rw [hh]; simp
    · have hh : hourOfDay (840 + (rand.minute 1 : Int)) = 14 := by unfold hourOfDay; omega
      rw [hh]; simp
    · have hh : hourOfDay (900 + (rand.minute 2 : Int)) = 15 := by unfold hourOfDay; omega
      rw [hh]; simp

/-- Witness for the amended C8: the hour-selection rule applied at midnight
with minute draw 30, and the 3-post scenario run with the zero random
stream. -/
theorem C8_next_hour_rule_and_scenario_witness :
    (∃ h ∈ optimalHours Platform.instagram,
      hourOfDay (getOptimalPostingTime Platform.instagram 0 0 30 + 0) = (h : Int)) ∧
    scheduleBatchPosts Platform.instagram 0 [] 3 0 0 false zeroRand =
      [780 + (zeroRand.minute 0 : Int), 840 + (zeroRand.minute 1 : Int),
        900 + (zeroRand.minute 2 : Int)] := by
  constructor
  · exact (C8_next_hour_rule_and_scenario.1 Platform.instagram 0 0 30 (by decide)).1
  · exact (C8_next_hour_rule_and_scenario.2 zeroRand (fun i => by simp [zeroRand])).1

theorem tier_of_mem_getByTier (τ : Tier) : ∀ t ∈ getByTier τ, t.tier = τ := by
  intro t ht
  have := List.of_mem_filter ht
  simpa using this

theorem filter_not_mem_take {l : List Template} (h : l.Nodup) (k : Nat) :
    l.filter (fun t => t ∉ l.take k) = l.drop k := by
  induction l generalizing k with
  | nil => simp
  | cons a l ih =>
    cases k with
    | zero => simp
    | succ k =>
      rw [List.take_succ_cons, List.drop_succ_cons,
        List.filter_cons_of_neg (by simp)]
      have ha : a ∉ l := (List.nodup_cons.mp h).1
      have hcongr : ∀ t ∈ l,
          (decide (t ∉ a :: l.take k) : Bool) = decide (t ∉ l.take k) := by
        intro t ht
        have hta : t ≠ a := fun e => ha (e ▸ ht)
        simp [List.mem_cons, hta]
      rw [List.filter_congr hcongr, ih (List.nodup_cons.mp h).2]

theorem padFill_spec (pool : List Template) (hn : pool.Nodup) :
    ∀ (fuel count : Nat) (selected : List Template), count - selected.length ≤ fuel →
    ∃ extra : List Template,
      padFill fuel pool count selected = selected ++ extra ∧
      (∀ t ∈ extra, t ∈ pool) ∧
      extra.length =
        min (count - selected.length) (pool.filter (fun t => t ∉ selected)).length := by
  intro fuel
  induction fuel with
  | zero =>
    intro count selected hf
    exact ⟨[], by simp [padFill], by simp, by simp; omega⟩
  | succ fuel ih =>
    intro count selected hf
    by_cases hlen : selected.length < count
    · rcases hfil : pool.filter (fun t => t ∉ selected) with _ | ⟨r, rest⟩
      · refine ⟨[], ?_, by simp, by simp⟩
        rw [padFill, if_pos hlen, hfil]
        simp
      · have hrfil : r ∈ pool.filter (fun t => t ∉ selected) := by
          rw [hfil]; exact List.mem_cons_self r rest
        have hrpool : r ∈ pool := List.mem_of_mem_filter hrfil
        have hrnot : r ∉ selected := by
          have := List.of_mem_filter hrfil
          simpa using this
        have hnodupfil : (r :: rest).Nodup := hfil ▸ hn.filter _
        have hrrest : r ∉ rest := (List.nodup_cons.mp hnodupfil).1
        have hfil' : pool.filter (fun t => t ∉ selected ++ [r]) = rest := by
          have hcomb : pool.filter (fun t => t ∉ selected ++ [r]) =
              (pool.filter (fun t => t ∉ selected)).filter (fun t => ¬ t = r) := by
            rw [List.filter_filter]
            apply List.filter_congr
            intro t _
            simp [List.mem_append, not_or, And.comm]
          rw [hcomb, hfil, List.filter_cons_of_neg (by simp)]
          apply List.filter_eq_self.mpr
          intro t ht
          have htr : ¬ t = r := by
            intro e
            exact hrrest (by rw [← e]; exact ht)
          simpa using htr
        obtain ⟨extra, he, hmem, hlen'⟩ :=
          ih count (selected ++ [r]) (by simp; omega)
        refine ⟨r :: extra, ?_, ?_, ?_⟩
        · rw [padFill, if_pos hlen, hfil]
          show padFill fuel pool count (selected ++ [r]) = selected ++ r :: extra
          rw [he]
          simp
        · intro t ht
          rcases List.mem_cons.mp ht with rfl | ht'
          · exact hrpool
          · exact hmem t ht'
        · rw [hfil'] at hlen'
          simp only [List.length_cons, List.length_append, List.length_singleton,
            List.length_nil] at hlen' ⊢
          omega
    · refine ⟨[], ?_, by simp, ?_⟩
      · rw [padFill, if_neg hlen]
        simp
      · simp; omega

theorem getByTier_capa1_length : (getByTier Tier.capa1).length = 31 := by rfl

theorem getByTier_capa2_length : (getByTier Tier.capa2).length = 18 := by rfl

theorem getByTier_capa3_length : (getByTier Tier.capa3).length = 1 := by rfl

theorem getByTier_capa1_nodup : (getByTier Tier.capa1).Nodup := by decide

/-- Claim C2, counterexample: with the shipped 50-template catalog (31 capa1,
18 capa2, but only 1 capa3 template), a 50-item request at ratios 0.6/0.3/0.1
does not return 30/15/5 templates per tier totalling 50: the capa3 sample is
clamped to the single available template, and the capa1 padding pool runs dry
after one extra template, so only 47 templates come back. -/
theorem C2_counterexample :
    ¬ ((getTierDistribution 50 (6/10) (3/10) (1/10)).length = 50 ∧
       ((getTierDistribution 50 (6/10) (3/10) (1/10)).filter
          (fun t => t.tier = Tier.capa1)).length = 30 ∧
       ((getTierDistribution 50 (6/10) (3/10) (1/10)).filter
          (fun t => t.tier = Tier.capa2)).length = 15 ∧
       ((getTierDistribution 50 (6/10) (3/10) (1/10)).filter
          (fun t => t.tier = Tier.capa3)).length = 5) := by
  have h1 : ratioCount 50 (6/10) = 30 := by norm_num [ratioCount] <;> decide
  have h2 : ratioCount 50 (3/10) = 15 := by norm_num [ratioCount] <;> decide
  have h3 : ratioCount 50 (1/10) = 5 := by norm_num [ratioCount] <;> decide
  simp only [getTierDistribution, h1, h2, h3]
  decide

/-- Claim C2 as amended: `get_tier_distribution` returns
`min(floor(count*ri), |tier-i pool|)` templates from each tier and pads the
shortfall from the unused capa1 templates, so the floor counts and the total
`count` are only reached when the pools suffice (first conjunct, stated for the
shipped pool sizes 31/18/1); at the claimed 50-item 0.6/0.3/0.1 scenario the
pools do not suffice and the result is 31 capa1 + 15 capa2 + 1 capa3 = 47
templates (second conjunct). -/
theorem C2_tier_distribution_amended :
    (∀ (count : Nat) (r1 r2 r3 : ℚ),
      ratioCount count r1 ≤ 31 → ratioCount count r2 ≤ 18 → ratioCount count r3 ≤ 1 →
      ratioCount count r1 + ratioCount count r2 + ratioCount count r3 ≤ count →
      count ≤ 31 + ratioCount count r2 + ratioCount count r3 →
      (getTierDistribution count r1 r2 r3).length = count ∧
      ((getTierDistribution count r1 r2 r3).filter
        (fun t => t.tier = Tier.capa1)).length =
          count - ratioCount count r2 - ratioCount count r3 ∧
      ((getTierDistribution count r1 r2 r3).filter
        (fun t => t.tier = Tier.capa2)).length = ratioCount count r2 ∧
      ((getTierDistribution count r1 r2 r3).filter
        (fun t => t.tier = Tier.capa3)).length = ratioCount count r3) ∧
    ((getTierDistribution 50 (6/10) (3/10) (1/10)).length = 47 ∧
     ((getTierDistribution 50 (6/10) (3/10) (1/10)).filter
        (fun t => t.tier = Tier.capa1)).length = 31 ∧
     ((getTierDistribution 50 (6/10) (3/10) (1/10)).filter
        (fun t => t.tier = Tier.capa2)).length = 15 ∧
     ((getTierDistribution 50 (6/10) (3/10) (1/10)).filter
        (fun t => t.tier = Tier.capa3)).length = 1) := by
  constructor
  · intro count r1 r2 r3 h1 h2 h3 hsum havail
    set c1 := ratioCount count r1 with hc1
    set c2 := ratioCount count r2 with hc2
    set c3 := ratioCount count r3 with hc3
    have hmin1 : min c1 (getByTier Tier.capa1).length = c1 := by
      rw [getByTier_capa1_length]; omega
    have hmin2 : min c2 (getByTier Tier.capa2).length = c2 := by
      rw [getByTier_capa2_length]; omega
    have hmin3 : min c3 (getByTier Tier.capa3).length = c3 := by
      rw [getByTier_capa3_length]; omega
    have hform : getTierDistribution count r1 r2 r3 =
        (padFill count (getByTier Tier.capa1) count
          ((getByTier Tier.capa1).take c1 ++ (getByTier Tier.capa2).take c2 ++
            (getByTier Tier.capa3).take c3)).take count := by
      simp only [getTierDistribution]
      rw [hmin1, hmin2, hmin3]
    have htake1 : ∀ t ∈ (getByTier Tier.capa1).take c1, t.tier = Tier.capa1 :=
      fun t ht => tier_of_mem_getByTier _ t (List.take_subset _ _ ht)
    have htake2 : ∀ t ∈ (getByTier Tier.capa2).take c2, t.tier = Tier.capa2 :=
      fun t ht => tier_of_mem_getByTier _ t (List.take_subset _ _ ht)
    have htake3 : ∀ t ∈ (getByTier Tier.capa3).take c3, t.tier = Tier.capa3 :=
      fun t ht => tier_of_mem_getByTier _ t (List.take_subset _ _ ht)
    have hA : ((getByTier Tier.capa1).take c1).length = c1 := by
      rw [List.length_take, getByTier_capa1_length]; omega
    have hB : ((getByTier Tier.capa2).take c2).length = c2 := by
      rw [List.length_take, getByTier_capa2_length]; omega
    have hC : ((getByTier Tier.capa3).take c3).length = c3 := by
      rw [List.length_take, getByTier_capa3_length]; omega
    have hfilsel : (getByTier Tier.capa1).filter
        (fun t => t ∉ ((getByTier Tier.capa1).take c1 ++ (getByTier Tier.capa2).take c2 ++
          (getByTier Tier.capa3).take c3)) = (getByTier Tier.capa1).drop c1 := by
      have hcongr : ∀ t ∈ getByTier Tier.capa1,
          (decide (t ∉ ((getByTier Tier.capa1).take c1 ++ (getByTier Tier.capa2).take c2 ++
            (getByTier Tier.capa3).take c3)) : Bool) =
          decide (t ∉ (getByTier Tier.capa1).take c1) := by
        intro t ht
        have ht1 := tier_of_mem_getByTier _ t ht
        have hB' : t ∉ (getByTier Tier.capa2).take c2 := by
          intro hm
          have h2t := htake2 t hm
          rw [ht1] at h2t
          exact absurd h2t (by decide)
        have hC' : t ∉ (getByTier Tier.capa3).take c3 := by
          intro hm
          have h3t := htake3 t hm
          rw [ht1] at h3t
          exact absurd h3t (by decide)
        simp [List.mem_append, hB', hC']
      rw [List.filter_congr hcongr]
      exact filter_not_mem_take getByTier_capa1_nodup c1
    obtain ⟨extra, heq, hmem, hlenx⟩ :=
      padFill_spec (getByTier Tier.capa1) getByTier_capa1_nodup count count
        ((getByTier Tier.capa1).take c1 ++ (getByTier Tier.capa2).take c2 ++
          (getByTier Tier.capa3).take c3) (Nat.sub_le _ _)
    rw [hfilsel, List.length_drop, getByTier_capa1_length] at hlenx
    have hsellen : ((getByTier Tier.capa1).take c1 ++ (getByTier Tier.capa2).take c2 ++
        (getByTier Tier.capa3).take c3).length = c1 + c2 + c3 := by
      rw [List.length_append, List.length_append, hA, hB, hC]
    rw [hsellen] at hlenx
    have hextra : extra.length = count - (c1 + c2 + c3) := by omega
    have htot : (((getByTier Tier.capa1).take c1 ++ (getByTier Tier.capa2).take c2 ++
        (getByTier Tier.capa3).take c3) ++ extra).length = count := by
      rw [List.length_append, hsellen, hextra]; omega
    have hwhole : getTierDistribution count r1 r2 r3 =
        ((getByTier Tier.capa1).take c1 ++ (getByTier Tier.capa2).take c2 ++
          (getByTier Tier.capa3).take c3) ++ extra := by
      rw [hform, heq, ← htot, List.take_length]
    have hextraTier : ∀ t ∈ extra, t.tier = Tier.capa1 :=
      fun t ht => tier_of_mem_getByTier _ t (hmem t ht)
    have hAf1 : ((getByTier Tier.capa1).take c1).filter (fun t => t.tier = Tier.capa1) =
        (getByTier Tier.capa1).take c1 :=
      List.filter_eq_self.mpr fun t ht => by simp [htake1 t ht]
    have hAf2 : ((getByTier Tier.capa1).take c1).filter (fun t => t.tier = Tier.capa2) = [] :=
      List.filter_eq_nil_iff.mpr fun t ht => by simp [htake1 t ht]
    have hAf3 : ((getByTier Tier.capa1).take c1).filter (fun t => t.tier = Tier.capa3) = [] :=
      List.filter_eq_nil_iff.mpr fun t ht => by simp [htake1 t ht]
    have hBf1 : ((getByTier Tier.capa2).take c2).filter (fun t => t.tier = Tier.capa1) = [] :=
      List.filter_eq_nil_iff.mpr fun t ht => by simp [htake2 t ht]
    have hBf2 : ((getByTier Tier.capa2).take c2).filter (fun t => t.tier = Tier.capa2) =
        (getByTier Tier.capa2).take c2 :=
      List.filter_eq_self.mpr fun t ht => by simp [htake2 t ht]
    have hBf3 : ((getByTier Tier.capa2).take c2).filter (fun t => t.tier = Tier.capa3) = [] :=
      List.filter_eq_nil_iff.mpr fun t ht => by simp [htake2 t ht]
    have hCf1 : ((getByTier Tier.capa3).take c3).filter (fun t => t.tier = Tier.capa1) = [] :=
      List.filter_eq_nil_iff.mpr fun t ht => by simp [htake3 t ht]
    have hCf2 : ((getByTier Tier.capa3).take c3).filter (fun t => t.tier = Tier.capa2) = [] :=
      List.filter_eq_nil_iff.mpr fun t ht => by simp [htake3 t ht]
    have hCf3 : ((getByTier Tier.capa3).take c3).filter (fun t => t.tier = Tier.capa3) =
        (getByTier Tier.capa3).take c3 :=
      List.filter_eq_self.mpr fun t ht => by simp [htake3 t ht]
    have hEf1 : extra.filter (fun t => t.tier = Tier.capa1) = extra :=
      List.filter_eq_self.mpr fun t ht => by simp [hextraTier t ht]
    have hEf2 : extra.filter (fun t => t.tier = Tier.capa2) = [] :=
      List.filter_eq_nil_iff.mpr fun t ht => by simp [hextraTier t ht]
    have hEf3 : extra.filter (fun t => t.tier = Tier.capa3) = [] :=
      List.filter_eq_nil_iff.mpr fun t ht => by simp [hextraTier t ht]
    refine ⟨by rw [hwhole, htot], ?_, ?_, ?_⟩
    · rw [hwhole, List.filter_append, List.filter_append, List.filter_append,
        hAf1, hBf1, hCf1, hEf1]
      simp only [List.length_append, List.length_nil, hA, hextra]
      omega
    · rw [hwhole, List.filter_append, List.filter_append, List.filter_append,
        hAf2, hBf2, hCf2, hEf2]
      simp only [List.length_append, List.length_nil, hB]
      omega
    · rw [hwhole, List.filter_append, List.filter_append, List.filter_append,
        hAf3, hBf3, hCf3, hEf3]
      simp only [List.length_append, List.length_nil, hC]
      omega
  · have h1 : ratioCount 50 (6/10) = 30 := by norm_num [ratioCount] <;> decide
    have h2 : ratioCount 50 (3/10) = 15 := by norm_num [ratioCount] <;> decide
    have h3 : ratioCount 50 (1/10) = 5 := by norm_num [ratioCount] <;> decide
    simp only [getTierDistribution, h1, h2, h3]
    refine ⟨by decide, by decide, by decide, by decide⟩

/-- Witness for the general part of the amended C2 at a pool-sufficient input:
a 10-item request at ratios 0.6/0.3/0.1 returns exactly 10 templates split
6/3/1. -/
theorem C2_tier_distribution_amended_witness :
    (getTierDistribution 10 (6/10) (3/10) (1/10)).length = 10 ∧
    ((getTierDistribution 10 (6/10) (3/10) (1/10)).filter
      (fun t => t.tier = Tier.capa2)).length = 3 ∧
    ((getTierDistribution 10 (6/10) (3/10) (1/10)).filter
      (fun t => t.tier = Tier.capa3)).length = 1 := by
  have h1 : ratioCount 10 (6/10) = 6 := by norm_num [ratioCount] <;> decide
  have h2 : ratioCount 10 (3/10) = 3 := by norm_num [ratioCount] <;> decide
  have h3 : ratioCount 10 (1/10) = 1 := by norm_num [ratioCount] <;> decide
  have hmain := C2_tier_distribution_amended.1 10 (6/10) (3/10) (1/10)
    (by rw [h1] <;> omega) (by rw [h2] <;> omega) (by rw [h3] <;> omega)
    (by rw [h1, h2, h3] <;> omega) (by rw [h2, h3] <;> omega)
  rw [h2, h3] at hmain
  exact ⟨hmain.1, hmain.2.2.1, hmain.2.2.2⟩

theorem batchGenAux_length_le (s : Nat) (l : List (Except String GenResult)) :
    (batchGenAux s l).length ≤ l.length := by
  induction l generalizing s with
  | nil => simp [batchGenAux]
  | cons r rest ih =>
    cases r with
    | error e =>
      simpa [batchGenAux] using Nat.le_succ_of_le (ih (s + 1))
    | ok v =>
      simpa [batchGenAux] using ih (s + 1)

theorem batchGenAux_all_ok (l : List (Except String GenResult)) :
    ∀ s : Nat, (∀ r ∈ l, r.isOk = true) →
    (batchGenAux s l).length = l.length ∧
    ∀ (j : Nat) (h : j < (batchGenAux s l).length),
      ((batchGenAux s l).get ⟨j, h⟩).promptIndex = s + j := by
  induction l with
  | nil => intro s _; exact ⟨rfl, fun j h => absurd h (by simp [batchGenAux])⟩
  | cons r rest ih =>
    intro s hall
    cases r with
    | error e => exact absurd (hall _ (List.mem_cons_self _ _)) (by simp [Except.isOk, Except.toBool])
    | ok v =>
      obtain ⟨ihlen, ihget⟩ := ih (s + 1) (fun r hr => hall r (List.mem_cons_of_mem _ hr))
      constructor
      · simp [batchGenAux, ihlen]
      · intro j h
        cases j with
        | zero => rfl
        | succ j =>
          have h' : j < (batchGenAux (s + 1) rest).length := by
            simpa [batchGenAux] using h
          have := ihget j h'
          simpa [batchGenAux, Nat.add_assoc, Nat.add_comm 1 j] using this

theorem batchGenAux_spec (l : List (Except String GenResult)) :
    ∀ (s j : Nat) (h : j < (batchGenAux s l).length),
    ∃ (k : Nat) (hk : k < l.length),
      ((batchGenAux s l).get ⟨j, h⟩).promptIndex = s + k ∧
      (l.get ⟨k, hk⟩).isOk = true ∧
      (l.take k).countP (fun x => x.isOk) = j ∧
      (l.take k).length = k := by
  induction l with
  | nil => intro s j h; exact absurd h (by simp [batchGenAux])
  | cons r rest ih =>
    intro s j h
    cases r with
    | error e =>
      have h' : j < (batchGenAux (s + 1) rest).length := by
        simpa [batchGenAux] using h
      obtain ⟨k, hk, hpi, hok, hcnt, hlen⟩ := ih (s + 1) j h'
      refine ⟨k + 1, by simpa using Nat.succ_lt_succ hk, ?_, ?_, ?_, ?_⟩
      · show ((batchGenAux (s + 1) rest).get ⟨j, h'⟩).promptIndex = s + (k + 1)
        rw [hpi]
        omega
      · exact hok
      · simpa [List.take_succ_cons, List.countP_cons, Except.isOk, Except.toBool] using hcnt
      · simpa [List.take_succ_cons] using hlen
    | ok v =>
      cases j with
      | zero =>
        exact ⟨0, by simp, rfl, rfl, rfl, rfl⟩
      | succ j =>
        have h' : j < (batchGenAux (s + 1) rest).length := by
          simpa [batchGenAux] using h
        obtain ⟨k, hk, hpi, hok, hcnt, hlen⟩ := ih (s + 1) j h'
        refine ⟨k + 1, by simpa using Nat.succ_lt_succ hk, ?_, ?_, ?_, ?_⟩
        · show ((batchGenAux (s + 1) rest).get ⟨j, h'⟩).promptIndex = s + (k + 1)
          rw [hpi]
          omega
        · exact hok
        · simpa [List.take_succ_cons, List.countP_cons, Except.isOk, Except.toBool] using hcnt
        · simpa [List.take_succ_cons] using hlen

theorem pairedItems_length (templates : List Template)
    (gen : Nat → Except String GenResult) :
    (pairedItems templates gen).length =
      min (batchGenerateImages ((List.range templates.length).map gen)).length
        templates.length := by
  simp [pairedItems]

theorem pairedItems_get (templates : List Template)
    (gen : Nat → Except String GenResult) (j : Nat)
    (hj : j < (pairedItems templates gen).length)
    (hjp : j < (batchGenerateImages ((List.range templates.length).map gen)).length)
    (hjt : j < templates.length) :
    (pairedItems templates gen).get ⟨j, hj⟩ =
      ⟨{ (batchGenerateImages ((List.range templates.length).map gen)).get ⟨j, hjp⟩ with
          template := some (templates.get ⟨j, hjt⟩),
          accessTier := (templates.get ⟨j, hjt⟩).tier },
        templates.get ⟨j, hjt⟩⟩ := by
  simp [pairedItems, List.get_eq_getElem, List.getElem_map, List.getElem_zip]

theorem generateImagesStage_false_def (enhance : Nat → Except String String)
    (templates : List Template) (gen : Nat → Except String GenResult) :
    generateImagesStage false enhance templates gen =
      Except.ok (pairedItems templates gen) := rfl

theorem generateImagesStage_true_def (enhance : Nat → Except String String)
    (templates : List Template) (gen : Nat → Except String GenResult) :
    generateImagesStage true enhance templates gen =
      match enhanceLoop enhance (List.range templates.length) with
      | .error e => Except.error e
      | .ok _ => Except.ok (pairedItems templates gen) := rfl

theorem generateImagesStage_ok {flag : Bool} {enhance : Nat → Except String String}
    {templates : List Template} {gen : Nat → Except String GenResult}
    {items : List BatchItem}
    (h : generateImagesStage flag enhance templates gen = Except.ok items) :
    items = pairedItems templates gen := by
  cases flag with
  | false =>
    rw [generateImagesStage_false_def] at h
    injection h with h2
    exact h2.symm
  | true =>
    rw [generateImagesStage_true_def] at h
    cases hm : enhanceLoop enhance (List.range templates.length) with
    | ok u =>
      rw [hm] at h
      have h2 : (Except.ok (pairedItems templates gen) :
          Except String (List BatchItem)) = Except.ok items := h
      injection h2 with h3
      exact h3.symm
    | error e2 =>
      rw [hm] at h
      exact Except.noConfusion
        (show (Except.error e2 : Except String (List BatchItem)) = Except.ok items from h)

theorem generateImagesStage_error {flag : Bool} {enhance : Nat → Except String String}
    {templates : List Template} {gen : Nat → Except String GenResult} {e : String}
    (h : generateImagesStage flag enhance templates gen = Except.error e) :
    flag = true ∧
      enhanceLoop enhance (List.range templates.length) = Except.error e := by
  cases flag with
  | false =>
    rw [generateImagesStage_false_def] at h
    exact Except.noConfusion
      (show (Except.ok (pairedItems templates gen) :
        Except String (List BatchItem)) = Except.error e from h)
  | true =>
    refine ⟨rfl, ?_⟩
    rw [generateImagesStage_true_def] at h
    cases hm : enhanceLoop enhance (List.range templates.length) with
    | ok u =>
      rw [hm] at h
      exact Except.noConfusion
        (show (Except.ok (pairedItems templates gen) :
          Except String (List BatchItem)) = Except.error e from h)
    | error e2 =>
      rw [hm] at h
      simpa using h

/-- Claim C10 (confirmed): surviving Generate-stage items are paired with
templates positionally against the full selected-template list, for every
item list a `_generate_images` run returns (any enhancement flag and any
enhancement outcome that lets the stage return).  First conjunct: when every
Generator call succeeds, item `j` carries prompt index `j`, template `j` and
that template's tier — the template that produced its prompt.  Second
conjunct: in general the `j`-th surviving item was produced by prompt index
`k ≥ j` (its `metadata["prompt_index"]`), yet it receives the template
metadata and tier of position `j`; whenever any call at an index below `k`
failed, `j < k` strictly, i.e. the item gets the metadata and tier of an
earlier template than the one that produced its prompt. -/
theorem C10_positional_pairing :
    (∀ (flag : Bool) (enhance : Nat → Except String String)
        (templates : List Template) (gen : Nat → Except String GenResult)
        (items : List BatchItem),
      generateImagesStage flag enhance templates gen = Except.ok items →
      (∀ i, i < templates.length → (gen i).isOk = true) →
      items.length = templates.length ∧
      ∀ (j : Nat) (hj : j < items.length)
        (hjt : j < templates.length),
        (items.get ⟨j, hj⟩).piece.promptIndex = j ∧
        (items.get ⟨j, hj⟩).template =
          templates.get ⟨j, hjt⟩ ∧
        (items.get ⟨j, hj⟩).piece.accessTier =
          (templates.get ⟨j, hjt⟩).tier) ∧
    (∀ (flag : Bool) (enhance : Nat → Except String String)
        (templates : List Template) (gen : Nat → Except String GenResult)
        (items : List BatchItem),
      generateImagesStage flag enhance templates gen = Except.ok items →
      ∀ (j : Nat) (hj : j < items.length),
      ∃ (k : Nat) (hk : k < templates.length) (hjt : j < templates.length),
        (items.get ⟨j, hj⟩).piece.promptIndex = k ∧
        (gen k).isOk = true ∧
        (items.get ⟨j, hj⟩).template =
          templates.get ⟨j, hjt⟩ ∧
        (items.get ⟨j, hj⟩).piece.accessTier =
          (templates.get ⟨j, hjt⟩).tier ∧
        j ≤ k ∧
        (∀ i, i < k → ¬ (gen i).isOk = true → j < k)) := by
  constructor
  · intro flag enhance templates gen items hitems hall
    have hpaired := generateImagesStage_ok hitems
    subst hpaired
    have hresall : ∀ r ∈ (List.range templates.length).map gen, r.isOk = true := by
      intro r hr
      obtain ⟨i, hi, rfl⟩ := List.mem_map.mp hr
      exact hall i (List.mem_range.mp hi)
    obtain ⟨hlen, hget⟩ :=
      batchGenAux_all_ok ((List.range templates.length).map gen) 0 hresall
    have hplen : (batchGenerateImages ((List.range templates.length).map gen)).length =
        templates.length := by
      unfold batchGenerateImages
      rw [hlen]
      simp
    have hilen : (pairedItems templates gen).length = templates.length := by
      rw [pairedItems_length, hplen]
      omega
    refine ⟨hilen, ?_⟩
    intro j hj hjt
    have hjp : j < (batchGenerateImages ((List.range templates.length).map gen)).length := by
      omega
    rw [pairedItems_get templates gen j hj hjp hjt]
    refine ⟨?_, rfl, rfl⟩
    have := hget j hjp
    simpa using this
  · intro flag enhance templates gen items hitems j hj
    have hpaired := generateImagesStage_ok hitems
    subst hpaired
    have hjboth : j < (batchGenerateImages ((List.range templates.length).map gen)).length ∧
        j < templates.length := by
      have := pairedItems_length templates gen
      omega
    obtain ⟨hjp, hjt⟩ := hjboth
    obtain ⟨k, hkres, hpi, hok, hcnt, htklen⟩ :=
      batchGenAux_spec ((List.range templates.length).map gen) 0 j hjp
    have hk : k < templates.length := by simpa using hkres
    have hgenk : ((List.range templates.length).map gen).get ⟨k, hkres⟩ = gen k := by
      simp [List.get_eq_getElem, List.getElem_map]
    refine ⟨k, hk, hjt, ?_, ?_, ?_, ?_, ?_, ?_⟩
    · rw [pairedItems_get templates gen j hj hjp hjt]
      simpa using hpi
    · rw [← hgenk]
      exact hok
    · rw [pairedItems_get templates gen j hj hjp hjt]
    · rw [pairedItems_get templates gen j hj hjp hjt]
    · have hle : List.countP (fun x => x.isOk)
          (((List.range templates.length).map gen).take k) ≤
          (((List.range templates.length).map gen).take k).length :=
        List.countP_le_length _
      omega
    · intro i hik hibad
      by_contra hjk
      have hle : List.countP (fun x => x.isOk)
          (((List.range templates.length).map gen).take k) ≤
          (((List.range templates.length).map gen).take k).length :=
        List.countP_le_length _
      have hjk' : j = k := by omega
      have hktake : (((List.range templates.length).map gen).take k).length = k := htklen
      have hallsat : ∀ r ∈ ((List.range templates.length).map gen).take k, r.isOk = true :=
        List.countP_eq_length.mp (by rw [hcnt, hktake, hjk'])
      have hmemi : gen i ∈ ((List.range templates.length).map gen).take k := by
        have hi : i < (((List.range templates.length).map gen).take k).length := by omega
        have : (((List.range templates.length).map gen).take k).get ⟨i, hi⟩ = gen i := by
          simp [List.get_eq_getElem, List.getElem_take, List.getElem_map]
        rw [← this]
        exact List.get_mem _ _ _
      exact hibad (hallsat _ hmemi)

/-- Witness for C10 at concrete inputs, with prompt enhancement enabled and
succeeding: an all-success batch of 3 keeps all 3 items, and with the
generator call at index 1 failing, the surviving item at position 1 is
covered by the pairing theorem (its prompt index is strictly later than its
assigned template). -/
theorem C10_positional_pairing_witness :
    ((pairedItems sampleTemplates (fun _ => Except.ok ⟨"u"⟩)).length = 3) ∧
    (∃ (k : Nat) (hk : k < sampleTemplates.length) (hjt : 1 < sampleTemplates.length),
      ((pairedItems sampleTemplates sampleGen).get
        ⟨1, by decide⟩).piece.promptIndex = k ∧
      (sampleGen k).isOk = true ∧
      ((pairedItems sampleTemplates sampleGen).get ⟨1, by decide⟩).template =
        sampleTemplates.get ⟨1, hjt⟩ ∧
      ((pairedItems sampleTemplates sampleGen).get ⟨1, by decide⟩).piece.accessTier =
        (sampleTemplates.get ⟨1, hjt⟩).tier ∧
      1 ≤ k ∧
      (∀ i, i < k → ¬ (sampleGen i).isOk = true → 1 < k)) := by
  constructor
  · exact (C10_positional_pairing.1 true (fun _ => Except.ok "enhanced")
      sampleTemplates (fun _ => Except.ok ⟨"u"⟩)
      (pairedItems sampleTemplates (fun _ => Except.ok ⟨"u"⟩)) rfl
      (fun i _ => rfl)).1
  · exact C10_positional_pairing.2 true (fun _ => Except.ok "enhanced")
      sampleTemplates sampleGen (pairedItems sampleTemplates sampleGen) rfl 1 (by decide)

theorem countP_set_add {α : Type} (p : α → Bool) :
    ∀ (l : List α) (i : Nat) (a b : α), l.get? i = some a →
    (l.set i b).countP p + (if p a then 1 else 0) =
      l.countP p + (if p b then 1 else 0) := by
  intro l
  induction l with
  | nil => intro i a b h; simp at h
  | cons x xs ih =>
    intro i a b h
    cases i with
    | zero =>
      simp only [List.get?_cons_zero, Option.some.injEq] at h
      subst h
      simp only [List.set_cons_zero, List.countP_cons]
      omega
    | succ i =>
      simp only [List.get?_cons_succ] at h
      have hrec := ih i a b h
      simp only [List.set_cons_succ, List.countP_cons]
      omega

theorem inFlight_initTasks (n : Nat) : inFlight (initTasks n) = 0 := by
  unfold inFlight initTasks
  induction n with
  | zero => rfl
  | succ n ih => simpa [List.replicate_succ, List.countP_cons, isRunning] using ih

theorem reach_prefix_done (limit n : Nat) (hpos : 0 < limit)
    (results : Nat → Except String GenResult) :
    ∀ k, k ≤ n → GenReach limit (initTasks n)
      ((List.range n).map fun i =>
        if i < k then TaskPhase.done (results i) else TaskPhase.waiting) := by
  intro k
  induction k with
  | zero =>
    intro _
    have hz : ((List.range n).map fun i =>
        if i < 0 then TaskPhase.done (results i) else TaskPhase.waiting) = initTasks n := by
      unfold initTasks
      induction n with
      | zero => rfl
      | succ n ih => simp [List.replicate]
    rw [hz]
    exact GenReach.refl
  | succ k ih =>
    intro hk1
    have hk : k < n := hk1
    have hreach := ih (Nat.le_of_lt hk)
    have hgetk : ((List.range n).map fun i =>
        if i < k then TaskPhase.done (results i) else TaskPhase.waiting).get? k =
        some TaskPhase.waiting := by
      rw [List.get?_map, List.get?_range hk]
      simp
    have hflight : inFlight ((List.range n).map fun i =>
        if i < k then TaskPhase.done (results i) else TaskPhase.waiting) = 0 := by
      unfold inFlight
      apply List.countP_eq_zero.mpr
      intro x hx
      obtain ⟨i, _, rfl⟩ := List.mem_map.mp hx
      by_cases hik : i < k <;> simp [hik, isRunning]
    have step1 := @GenStep.start limit _ k hgetk (by rw [hflight]; exact hpos)
    have hgetk2 : (((List.range n).map fun i =>
        if i < k then TaskPhase.done (results i) else TaskPhase.waiting).set k
          TaskPhase.running).get? k = some TaskPhase.running := by
      rw [List.get?_set_eq, hgetk]
      rfl
    have step2 := @GenStep.finish limit _ k (results k) hgetk2
    have hfinal : ((((List.range n).map fun i =>
        if i < k then TaskPhase.done (results i) else TaskPhase.waiting).set k
          TaskPhase.running).set k (TaskPhase.done (results k))) =
        ((List.range n).map fun i =>
          if i < k + 1 then TaskPhase.done (results i) else TaskPhase.waiting) := by
      rw [List.set_set]
      apply List.ext_get?
      intro j
      by_cases hjk : j = k
      · subst hjk
        rw [List.get?_set_eq, List.get?_map, List.get?_range hk, List.get?_map,
          List.get?_range hk]
        simp
      · rw [List.get?_set_ne _ _ (fun e => hjk e.symm), List.get?_map, List.get?_map]
        by_cases hjn : j < n
        · rw [List.get?_range hjn]
          have : (j < k) = (j < k + 1) := by
            apply propext
            omega
          simp [this]
        · have hnone : (List.range n).get? j = none := by
            apply List.get?_eq_none.mpr
            simpa using Nat.le_of_not_lt hjn
          rw [hnone]
          rfl
    rw [← hfinal]
    exact GenReach.tail (GenReach.tail hreach step1) step2

/-- Claim C9 (confirmed): for the semaphore-bounded Generate stage, (1) along
every interleaving from the all-waiting initial state the number of in-flight
generator calls never exceeds `limit` (the source instantiates `limit = 5`),
(2) every step changes exactly one task's slot, (3) a finished slot — success
or captured failure — is never changed again (no cancellation of siblings),
and (4) for any per-slot outcomes, a schedule exists reaching the state in
which slot `i` holds exactly task `i`'s own outcome (all-settled semantics in
input order). -/
theorem C9_concurrency_bound :
    (∀ (limit n : Nat) (s : List TaskPhase),
      GenReach limit (initTasks n) s → inFlight s ≤ limit ∧ s.length = n) ∧
    (∀ (limit : Nat) (s s' : List TaskPhase), GenStep limit s s' →
      ∃ (i : Nat) (x : TaskPhase), s' = s.set i x ∧
        ∀ j, j ≠ i → s'.get? j = s.get? j) ∧
    (∀ (limit : Nat) (s s' : List TaskPhase), GenStep limit s s' →
      ∀ (j : Nat) (r : Except String GenResult),
        s.get? j = some (TaskPhase.done r) → s'.get? j = some (TaskPhase.done r)) ∧
    (∀ (limit n : Nat) (results : Nat → Except String GenResult), 0 < limit →
      GenReach limit (initTasks n)
        ((List.range n).map fun i => TaskPhase.done (results i))) := by
  refine ⟨?_, ?_, ?_, ?_⟩
  · intro limit n s h
    induction h with
    | refl =>
      constructor
      · rw [inFlight_initTasks]
        omega
      · simp [initTasks]
    | tail hreach hstep ih =>
      cases hstep with
      | start i hi hfree =>
        have hcnt := countP_set_add isRunning _ i TaskPhase.waiting TaskPhase.running hi
        simp [isRunning] at hcnt
        constructor
        · unfold inFlight at ih hfree ⊢
          omega
        · rw [List.length_set]
          exact ih.2
      | finish i r hi =>
        have hcnt := countP_set_add isRunning _ i TaskPhase.running (TaskPhase.done r) hi
        simp [isRunning] at hcnt
        constructor
        · unfold inFlight at ih ⊢
          omega
        · rw [List.length_set]
          exact ih.2
  · intro limit s s' hstep
    cases hstep with
    | start i hi hfree =>
      exact ⟨i, TaskPhase.running, rfl, fun j hj => List.get?_set_ne _ _ (fun e => hj e.symm)⟩
    | finish i r hi =>
      exact ⟨i, TaskPhase.done r, rfl, fun j hj => List.get?_set_ne _ _ (fun e => hj e.symm)⟩
  · intro limit s s' hstep j r hdone
    cases hstep with
    | start i hi hfree =>
      by_cases hji : j = i
      · subst hji
        rw [hdone] at hi
        exact absurd (Option.some.inj hi) (by intro h; cases h)
      · rw [List.get?_set_ne _ _ (fun e => hji e.symm)]
        exact hdone
    | finish i r' hi =>
      by_cases hji : j = i
      · subst hji
        rw [hdone] at hi
        exact absurd (Option.some.inj hi) (by intro h; cases h)
      · rw [List.get?_set_ne _ _ (fun e => hji e.symm)]
        exact hdone
  · intro limit n results hpos
    have := reach_prefix_done limit n hpos results n (Nat.le_refl n)
    have hcongr : ((List.range n).map fun i =>
        if i < n then TaskPhase.done (results i) else TaskPhase.waiting) =
        (List.range n).map fun i => TaskPhase.done (results i) := by
      apply List.map_congr_left
      intro i hi
      simp [List.mem_range.mp hi]
    rw [hcongr] at this
    exact this

/-- Witness for C9 at concrete inputs: the initial 3-task state respects the
limit 5, and with limit 1 a 2-task batch can still settle every slot with its
own outcome. -/
theorem C9_concurrency_bound_witness :
    inFlight (initTasks 3) ≤ 5 ∧ (initTasks 3).length = 3 ∧
    GenReach 1 (initTasks 2)
      ((List.range 2).map fun i =>
        TaskPhase.done ((fun _ => Except.ok ⟨"u"⟩ : Nat → Except String GenResult) i)) :=
  ⟨(C9_concurrency_bound.1 5 3 (initTasks 3) GenReach.refl).1,
   (C9_concurrency_bound.1 5 3 (initTasks 3) GenReach.refl).2,
   C9_concurrency_bound.2.2.2 1 2 (fun _ => Except.ok ⟨"u"⟩) (by decide)⟩

theorem length_filterMap_keep {α γ : Type} (P : α → Prop) [DecidablePred P]
    (g : α → γ) (l : List α) :
    (l.filterMap fun x => if P x then some (g x) else none).length =
      l.countP (fun x => decide (P x)) := by
  induction l with
  | nil => rfl
  | cons a l ih =>
    by_cases h : P a <;> simp [List.filterMap_cons, List.countP_cons, h, ih]

theorem length_filterMap_drop {α γ : Type} (P : α → Prop) [DecidablePred P]
    (g : α → γ) (l : List α) :
    (l.filterMap fun x => if P x then none else some (g x)).length =
      l.countP (fun x => ! decide (P x)) := by
  induction l with
  | nil => rfl
  | cons a l ih =>
    by_cases h : P a <;> simp [List.filterMap_cons, List.countP_cons, h, ih]

theorem countP_zip_snd {α β : Type} (q : β → Bool) :
    ∀ (m : List β) (l : List α), m.length ≤ l.length →
    (l.zip m).countP (fun p => q p.2) = m.countP q := by
  intro m
  induction m with
  | nil => intro l _; simp
  | cons b m ih =>
    intro l hl
    cases l with
    | nil => simp at hl
    | cons a l =>
      simp only [List.zip_cons_cons, List.countP_cons]
      rw [ih l (by simpa using hl)]

theorem countP_zip_fst {α β : Type} (q : α → Bool) :
    ∀ (l : List α) (m : List β), l.length ≤ m.length →
    (l.zip m).countP (fun p => q p.1) = l.countP q := by
  intro l
  induction l with
  | nil => intro m _; simp
  | cons a l ih =>
    intro m hl
    cases m with
    | nil => simp at hl
    | cons b m =>
      simp only [List.zip_cons_cons, List.countP_cons]
      rw [ih m (by simpa using hl)]

theorem batchGenAux_length (l : List (Except String GenResult)) :
    ∀ s : Nat, (batchGenAux s l).length = l.countP (fun x => x.isOk) := by
  induction l with
  | nil => intro s; rfl
  | cons r rest ih =>
    intro s
    cases r with
    | error e => simp [batchGenAux, List.countP_cons, Except.isOk, Except.toBool, ih]
    | ok v => simp [batchGenAux, List.countP_cons, Except.isOk, Except.toBool, ih]

theorem pairedItems_length_count (templates : List Template)
    (gen : Nat → Except String GenResult) :
    (pairedItems templates gen).length =
      (List.range templates.length).countP (fun i => (gen i).isOk) := by
  have hp : (batchGenerateImages ((List.range templates.length).map gen)).length =
      (List.range templates.length).countP (fun i => (gen i).isOk) := by
    unfold batchGenerateImages
    rw [batchGenAux_length, List.countP_map]
    rfl
  have hle : (List.range templates.length).countP (fun i => (gen i).isOk) ≤
      templates.length := by
    have hle0 : (List.range templates.length).countP (fun i => (gen i).isOk) ≤
        (List.range templates.length).length := List.countP_le_length _
    simpa using hle0
  rw [pairedItems_length, hp]
  omega

theorem generateHooksStage_length (hookOracle : Nat → Except String (List String))
    (items : List BatchItem) :
    (generateHooksStage hookOracle items).length = items.length := by
  simp [generateHooksStage, List.enum_length]

theorem uploadToStorageStage_length (r2PublicUrl : String)
    (uploadOracle : Nat → Except String String) (items : List BatchItem) :
    (uploadToStorageStage r2PublicUrl uploadOracle items).length = items.length := by
  simp [uploadToStorageStage, List.enum_length]

theorem safetyCheckStage_length (safetyOracle : Nat → Except String SafetyResult)
    (items : List BatchItem) :
    (safetyCheckStage safetyOracle items).length +
      (List.range items.length).countP
        (fun i => (safetyVerdict (safetyOracle i)).rating = SafetyRating.rejected) =
      items.length := by
  have hvlen : (batchCheckSafety safetyOracle items.length).length = items.length := by
    simp [batchCheckSafety]
  have h1 : (safetyCheckStage safetyOracle items).length =
      (items.zip (batchCheckSafety safetyOracle items.length)).countP
        (fun p => ! decide (p.2.rating = SafetyRating.rejected)) := by
    unfold safetyCheckStage
    exact length_filterMap_drop _ _ _
  have h2 : (items.zip (batchCheckSafety safetyOracle items.length)).countP
        (fun p => ! decide (p.2.rating = SafetyRating.rejected)) =
      (batchCheckSafety safetyOracle items.length).countP
        (fun v => ! decide (v.rating = SafetyRating.rejected)) :=
    countP_zip_snd (fun v => ! decide (v.rating = SafetyRating.rejected))
      (batchCheckSafety safetyOracle items.length) items (by rw [hvlen])
  have h3 : (batchCheckSafety safetyOracle items.length).countP
        (fun v => ! decide (v.rating = SafetyRating.rejected)) =
      (List.range items.length).countP
        (fun i => ! decide ((safetyVerdict (safetyOracle i)).rating = SafetyRating.rejected)) := by
    unfold batchCheckSafety
    rw [List.countP_map]
    rfl
  have h4 := List.length_eq_countP_add_countP
    (fun i => decide ((safetyVerdict (safetyOracle i)).rating = SafetyRating.rejected))
    (List.range items.length)
  have h5 : (List.range items.length).countP
      (fun i => ! decide ((safetyVerdict (safetyOracle i)).rating = SafetyRating.rejected)) =
      (List.range items.length).countP
        (fun i => ¬ decide ((safetyVerdict (safetyOracle i)).rating = SafetyRating.rejected) = true) := by
    apply List.countP_congr
    intro i _
    by_cases h : (safetyVerdict (safetyOracle i)).rating = SafetyRating.rejected <;> simp [h]
  rw [h1, h2, h3, h5]
  simp only [List.length_range] at h4 ⊢
  omega

theorem saveToDatabaseStage_length (saveOk : Nat → Bool) (items : List BatchItem) :
    (saveToDatabaseStage saveOk items).length +
      (List.range items.length).countP (fun i => ! saveOk i) = items.length := by
  have h1 : (saveToDatabaseStage saveOk items).length =
      items.enum.countP (fun p => saveOk p.1) := by
    unfold saveToDatabaseStage
    rw [length_filterMap_keep (fun p : Nat × BatchItem => saveOk p.1 = true)
      (fun p => p.2.piece)]
    apply List.countP_congr
    intro p _
    by_cases h : saveOk p.1 <;> simp [h]
  have h2 : items.enum.countP (fun p => saveOk p.1) =
      (List.range items.length).countP saveOk := by
    rw [List.enum_eq_zip_range]
    exact countP_zip_fst _ _ _ (by simp)
  have h4 := List.length_eq_countP_add_countP saveOk (List.range items.length)
  have h5 : (List.range items.length).countP (fun i => ! saveOk i) =
      (List.range items.length).countP (fun i => ¬ saveOk i = true) := by
    apply List.countP_congr
    intro i _
    by_cases h : saveOk i <;> simp [h]
  rw [h1, h2, h5]
  simp only [List.length_range] at h4 ⊢
  omega

/-- Claim C4, original form, refuted: `process_batch` does NOT raise only
when the Select stage produces zero candidates.  The prompt-enhancement call
inside `_generate_images` (`batch_processor.py:352-368`) is enabled by
default and has no `try/except` anywhere on its path
(`prompt_enhancer.py:18-68`), so one failing OpenAI request escapes the
stage, and the handler of `process_batch` (`batch_processor.py:248-255`) logs
and re-raises it: a 3-template batch whose first `enhance_prompt` call raises
aborts with that exception even though every per-item oracle of every other
stage succeeds. -/
theorem C4_counterexample :
    ¬ (∀ (cfg : BatchConfig) (templates : List Template)
        (enhance : Nat → Except String String) (gen : Nat → Except String GenResult)
        (hookOracle : Nat → Except String (List String))
        (safetyOracle : Nat → Except String SafetyResult)
        (r2PublicUrl : String) (uploadOracle : Nat → Except String String)
        (saveOk : Nat → Bool),
        templates ≠ [] →
        (processBatch cfg templates enhance gen hookOracle safetyOracle r2PublicUrl
          uploadOracle saveOk).isOk = true) := by
  intro h
  have hc := h ⟨3, true, true, true, true⟩ sampleTemplates
    (fun _ => Except.error "OpenAI request failed") sampleGen
    (fun _ => Except.ok ["hi"])
    (fun _ => Except.ok ⟨SafetyRating.safe, none⟩)
    "https://r2" (fun _ => Except.ok "https://r2/x.jpg") (fun _ => true)
    (by decide)
  exact absurd hc (by decide)

/-- Claim C4 (corrected): `process_batch` absorbs every per-item failure of
generation, caption/hook, moderation, storage and persistence and returns a
`BatchResult` whose counts reflect them (first conjunct, with the per-stage
accounting: generation failures are dropped and counted, hook failures drop
nothing, moderation removes exactly the rejected items, storage failures drop
nothing, save failures skip exactly the failing pieces).  Its one raise path
is the default-enabled prompt enhancement: an `enhance_prompts` exception
propagates out of the run unchanged (second conjunct), and every error of the
Generate stage comes from exactly that call with the flag on (third
conjunct).  An empty Select does not raise either — the run returns a
success result with zero pieces (fourth conjunct). -/
theorem C4_process_batch_amended :
    (∀ (cfg : BatchConfig) (templates : List Template)
        (enhance : Nat → Except String String) (gen : Nat → Except String GenResult)
        (hookOracle : Nat → Except String (List String))
        (safetyOracle : Nat → Except String SafetyResult)
        (r2PublicUrl : String) (uploadOracle : Nat → Except String String)
        (saveOk : Nat → Bool)
        (generated hooked checked stored : List BatchItem) (saved : List ContentPiece),
      generateImagesStage cfg.enhancePrompts enhance templates gen =
        Except.ok generated →
      hooked = (if cfg.includeHooks then generateHooksStage hookOracle generated
        else generated) →
      checked = (if cfg.safetyCheck then safetyCheckStage safetyOracle hooked else hooked) →
      stored = (if cfg.uploadToStorage then
        uploadToStorageStage r2PublicUrl uploadOracle checked else checked) →
      saved = saveToDatabaseStage saveOk stored →
      (processBatch cfg templates enhance gen hookOracle safetyOracle r2PublicUrl
          uploadOracle saveOk =
        Except.ok
          { success := true
            totalPieces := saved.length
            stats := calculateStatistics saved
            generatedCount := generated.length
            safetyRejectedCount := cfg.numPieces - checked.length
            savedCount := saved.length } ∧
        generated.length + (List.range templates.length).countP
          (fun i => ! (gen i).isOk) = templates.length ∧
        hooked.length = generated.length ∧
        (cfg.safetyCheck = true →
          checked.length + (List.range hooked.length).countP
            (fun i => (safetyVerdict (safetyOracle i)).rating = SafetyRating.rejected) =
            hooked.length) ∧
        (cfg.safetyCheck = false → checked = hooked) ∧
        stored.length = checked.length ∧
        saved.length + (List.range stored.length).countP (fun i => ! saveOk i) =
          stored.length)) ∧
    (∀ (cfg : BatchConfig) (templates : List Template)
        (enhance : Nat → Except String String) (gen : Nat → Except String GenResult)
        (hookOracle : Nat → Except String (List String))
        (safetyOracle : Nat → Except String SafetyResult)
        (r2PublicUrl : String) (uploadOracle : Nat → Except String String)
        (saveOk : Nat → Bool) (e : String),
      generateImagesStage cfg.enhancePrompts enhance templates gen = Except.error e →
      processBatch cfg templates enhance gen hookOracle safetyOracle r2PublicUrl
        uploadOracle saveOk = Except.error e) ∧
    (∀ (flag : Bool) (enhance : Nat → Except String String)
        (templates : List Template) (gen : Nat → Except String GenResult) (e : String),
      generateImagesStage flag enhance templates gen = Except.error e →
      flag = true ∧
        enhanceLoop enhance (List.range templates.length) = Except.error e) ∧
    (∀ (cfg : BatchConfig) (enhance : Nat → Except String String)
        (gen : Nat → Except String GenResult)
        (hookOracle : Nat → Except String (List String))
        (safetyOracle : Nat → Except String SafetyResult)
        (r2PublicUrl : String) (uploadOracle : Nat → Except String String)
        (saveOk : Nat → Bool),
      processBatch cfg [] enhance gen hookOracle safetyOracle r2PublicUrl
        uploadOracle saveOk =
        Except.ok
          { success := true
            totalPieces := 0
            stats := calculateStatistics []
            generatedCount := 0
            safetyRejectedCount := cfg.numPieces
            savedCount := 0 }) := by
  refine ⟨?_, ?_, ?_, ?_⟩
  · intro cfg templates enhance gen hookOracle safetyOracle r2PublicUrl uploadOracle
      saveOk generated hooked checked stored saved hg hh hc hs hv
    have hgen := generateImagesStage_ok hg
    subst hgen
    subst hh hc hs hv
    refine ⟨?_, ?_, ?_, ?_, ?_, ?_, ?_⟩
    · unfold processBatch
      rw [hg]
    · rw [pairedItems_length_count]
      have hsplit := List.length_eq_countP_add_countP (fun i => (gen i).isOk)
        (List.range templates.length)
      have hcongr : (List.range templates.length).countP (fun i => ! (gen i).isOk) =
          (List.range templates.length).countP (fun i => ¬ (gen i).isOk = true) := by
        apply List.countP_congr
        intro i _
        by_cases h : (gen i).isOk <;> simp [h]
      rw [hcongr]
      simp only [List.length_range] at hsplit ⊢
      omega
    · by_cases h : cfg.includeHooks <;>
        simp [h, generateHooksStage_length]
    · intro h
      rw [h]
      simp only [if_pos rfl]
      exact safetyCheckStage_length safetyOracle _
    · intro h
      rw [h]
      simp
    · by_cases h : cfg.uploadToStorage <;>
        simp [h, uploadToStorageStage_length]
    · exact saveToDatabaseStage_length saveOk _
  · intro cfg templates enhance gen hookOracle safetyOracle r2PublicUrl uploadOracle
      saveOk e h
    unfold processBatch
    rw [h]
  · intro flag enhance templates gen e h
    exact generateImagesStage_error h
  · intro cfg enhance gen hookOracle safetyOracle r2PublicUrl uploadOracle saveOk
    obtain ⟨np, ihk, sck, ups, enp⟩ := cfg
    cases enp <;> cases ihk <;> cases sck <;> cases ups <;> rfl

/-- Witness for C4 at concrete inputs.  First conjunct: all optional stages
and prompt enhancement enabled with every enhancement call succeeding, the
generator failing at index 1, the hook call failing at index 0, and the save
of slot 0 failing — the run still returns `Except.ok` with the recorded
counts (the second generated item is rejected by moderation here because its
oracle slot errors, which `batch_check_safety` converts to a rejection).
Second conjunct: the same batch with the first enhancement call raising
aborts with that exception. -/
theorem C4_process_batch_amended_witness :
    (processBatch ⟨3, true, true, true, true⟩ sampleTemplates
        (fun _ => Except.ok "enhanced") sampleGen
        (fun i => if i = 0 then Except.error "hook api down" else Except.ok ["hi"])
        (fun i => if i = 1 then Except.error "moderation timeout"
          else Except.ok ⟨SafetyRating.safe, some Tier.capa1⟩)
        "https://r2" (fun _ => Except.ok "https://r2/x.jpg")
        (fun i => i ≠ 0) =
      Except.ok
        { success := true
          totalPieces := (saveToDatabaseStage (fun i => i ≠ 0)
            (uploadToStorageStage "https://r2" (fun _ => Except.ok "https://r2/x.jpg")
              (safetyCheckStage
                (fun i => if i = 1 then Except.error "moderation timeout"
                  else Except.ok ⟨SafetyRating.safe, some Tier.capa1⟩)
                (generateHooksStage
                  (fun i => if i = 0 then Except.error "hook api down" else Except.ok ["hi"])
                  (pairedItems sampleTemplates sampleGen))))).length
          stats := calculateStatistics (saveToDatabaseStage (fun i => i ≠ 0)
            (uploadToStorageStage "https://r2" (fun _ => Except.ok "https://r2/x.jpg")
              (safetyCheckStage
                (fun i => if i = 1 then Except.error "moderation timeout"
                  else Except.ok ⟨SafetyRating.safe, some Tier.capa1⟩)
                (generateHooksStage
                  (fun i => if i = 0 then Except.error "hook api down" else Except.ok ["hi"])
                  (pairedItems sampleTemplates sampleGen)))))
          generatedCount := (pairedItems sampleTemplates sampleGen).length
          safetyRejectedCount := 3 - (safetyCheckStage
            (fun i => if i = 1 then Except.error "moderation timeout"
              else Except.ok ⟨SafetyRating.safe, some Tier.capa1⟩)
            (generateHooksStage
              (fun i => if i = 0 then Except.error "hook api down" else Except.ok ["hi"])
              (pairedItems sampleTemplates sampleGen))).length
          savedCount := (saveToDatabaseStage (fun i => i ≠ 0)
            (uploadToStorageStage "https://r2" (fun _ => Except.ok "https://r2/x.jpg")
              (safetyCheckStage
                (fun i => if i = 1 then Except.error "moderation timeout"
                  else Except.ok ⟨SafetyRating.safe, some Tier.capa1⟩)
                (generateHooksStage
                  (fun i => if i = 0 then Except.error "hook api down" else Except.ok ["hi"])
                  (pairedItems sampleTemplates sampleGen))))).length }) ∧
    (processBatch ⟨3, true, true, true, true⟩ sampleTemplates
        (fun _ => Except.error "OpenAI request failed") sampleGen
        (fun i => if i = 0 then Except.error "hook api down" else Except.ok ["hi"])
        (fun i => if i = 1 then Except.error "moderation timeout"
          else Except.ok ⟨SafetyRating.safe, some Tier.capa1⟩)
        "https://r2" (fun _ => Except.ok "https://r2/x.jpg")
        (fun i => i ≠ 0) =
      Except.error "OpenAI request failed") :=
  ⟨(C4_process_batch_amended.1 ⟨3, true, true, true, true⟩ sampleTemplates
      (fun _ => Except.ok "enhanced") sampleGen
      (fun i => if i = 0 then Except.error "hook api down" else Except.ok ["hi"])
      (fun i => if i = 1 then Except.error "moderation timeout"
        else Except.ok ⟨SafetyRating.safe, some Tier.capa1⟩)
      "https://r2" (fun _ => Except.ok "https://r2/x.jpg") (fun i => i ≠ 0)
      _ _ _ _ _ rfl rfl rfl rfl rfl).1,
    C4_process_batch_amended.2.1 ⟨3, true, true, true, true⟩ sampleTemplates
      (fun _ => Except.error "OpenAI request failed") sampleGen
      (fun i => if i = 0 then Except.error "hook api down" else Except.ok ["hi"])
      (fun i => if i = 1 then Except.error "moderation timeout"
        else Except.ok ⟨SafetyRating.safe, some Tier.capa1⟩)
      "https://r2" (fun _ => Except.ok "https://r2/x.jpg") (fun i => i ≠ 0)
      "OpenAI request failed" rfl⟩

theorem mem_insertByTime {p q : ScheduledPost} :
    ∀ l : List ScheduledPost, q ∈ insertByTime p l ↔ q = p ∨ q ∈ l := by
  intro l
  induction l with
  | nil => simp [insertByTime]
  | cons a l ih =>
    by_cases h : p.scheduledTime ≤ a.scheduledTime
    · simp [insertByTime, h]
    · simp [insertByTime, h, ih]
      tauto

theorem mem_sortByTime {q : ScheduledPost} :
    ∀ l : List ScheduledPost, q ∈ sortByTime l ↔ q ∈ l := by
  intro l
  induction l with
  | nil => simp [sortByTime]
  | cons a l ih =>
    simp [sortByTime, mem_insertByTime, ih]

theorem length_insertByTime (p : ScheduledPost) :
    ∀ l : List ScheduledPost, (insertByTime p l).length = l.length + 1 := by
  intro l
  induction l with
  | nil => rfl
  | cons a l ih =>
    by_cases h : p.scheduledTime ≤ a.scheduledTime
    · simp [insertByTime, h]
    · simp [insertByTime, h, ih]

theorem length_sortByTime :
    ∀ l : List ScheduledPost, (sortByTime l).length = l.length := by
  intro l
  induction l with
  | nil => rfl
  | cons a l ih => simp [sortByTime, length_insertByTime, ih]

theorem selection_only_due_pending (posts : List ScheduledPost) (now : Int)
    (limit : Nat) : ∀ q ∈ getNextPostsToPublish posts now limit,
    q.status = PostStatus.pending ∧ q.scheduledTime ≤ now := by
  intro q hq
  have hq1 : q ∈ sortByTime (posts.filter
      (fun p => p.status = PostStatus.pending ∧ p.scheduledTime ≤ now)) :=
    List.take_subset _ _ hq
  have hq2 := (mem_sortByTime _).mp hq1
  have := List.of_mem_filter hq2
  simpa using this

/-- Claim C5, counterexample: dispatching a due pending post whose account is
unhealthy does not leave the post pending for the next sweep — the code sets
`status = "failed"` and records an `"Account unhealthy"` error message
(`workers/tasks.py:390-395`), a hard failure rather than the claimed soft
skip. -/
theorem C5_counterexample :
    (publishStep c5State 7 0 (fun _ => some ⟨"https://img", none⟩)
        (Except.ok ⟨some "pid", some "purl"⟩)).2 = DispatchOutcome.failedUnhealthy ∧
    (findPost (publishStep c5State 7 0 (fun _ => some ⟨"https://img", none⟩)
        (Except.ok ⟨some "pid", some "purl"⟩)).1.posts 7).map
      (fun p => p.status) = some PostStatus.failed ∧
    ¬ ((findPost (publishStep c5State 7 0 (fun _ => some ⟨"https://img", none⟩)
        (Except.ok ⟨some "pid", some "purl"⟩)).1.posts 7).map
      (fun p => p.status) = some PostStatus.pending) := by
  decide

/-- Claim C5 as amended: for every due pending post whose account fails the
health check, the dispatcher marks the post `failed` and records
`"Account unhealthy (status: ...)"` as its error message (the publish oracle is
never consulted), and the selection query only ever returns pending posts, so
such a post is not retried on later sweeps. -/
theorem C5_unhealthy_account_fails_post :
    (∀ (st : DispatchState) (postId : Nat) (now : Int)
        (contentOf : Nat → Option Content) (publish : Except String PubSuccess)
        (post : ScheduledPost) (account : Account) (c : Content),
      findPost st.posts postId = some post →
      post.status = PostStatus.pending →
      findAccount st.accounts post.accountId = some account →
      contentOf post.contentId = some c →
      account.isHealthy = false →
      (publishStep st postId now contentOf publish).2 = DispatchOutcome.failedUnhealthy ∧
      (publishStep st postId now contentOf publish).1.posts =
        updatePost st.posts postId (markFailedWith
          ("Account unhealthy (status: " ++ accountStatusValue account.status ++ ")"))) ∧
    (∀ (posts : List ScheduledPost) (now : Int) (limit : Nat),
      ∀ q ∈ getNextPostsToPublish posts now limit, q.status = PostStatus.pending) := by
  constructor
  · intro st postId now contentOf publish post account c hfind hpending hacc hcontent hbad
    unfold publishStep
    simp only [hfind, hacc, hcontent, hbad, hpending]
    simp
  · intro posts now limit q hq
    exact (selection_only_due_pending posts now limit q hq).1

/-- Witness for the amended C5 at the concrete unhealthy-account state. -/
theorem C5_unhealthy_account_fails_post_witness :
    (publishStep c5State 7 0 (fun _ => some ⟨"https://img", none⟩)
        (Except.ok ⟨some "pid", some "purl"⟩)).2 = DispatchOutcome.failedUnhealthy ∧
    (publishStep c5State 7 0 (fun _ => some ⟨"https://img", none⟩)
        (Except.ok ⟨some "pid", some "purl"⟩)).1.posts =
      updatePost c5State.posts 7 (markFailedWith
        ("Account unhealthy (status: " ++ accountStatusValue AccountStatus.active ++ ")")) :=
  C5_unhealthy_account_fails_post.1 c5State 7 0 (fun _ => some ⟨"https://img", none⟩)
    (Except.ok ⟨some "pid", some "purl"⟩) (mkPendingPost 7 1 100 0)
    ⟨1, Platform.instagram, AccountStatus.active, 50, none⟩ ⟨"https://img", none⟩
    (by decide) rfl (by decide) rfl (by decide)

/-- Claim C6 (code bug): when the publish attempt for a pending post raises,
the except handler consults `ScheduledPost.can_retry`, which requires
`status == "failed"` — but the post is still `"pending"` at that moment, so
the guard is always false and `reschedule_failed_post` (the exponential
backoff path the surrounding comments announce) is unreachable: the very
first failure marks the post terminally failed with the error message,
leaving `retry_count = 0` and `scheduled_time` untouched, instead of the
backoff reschedule the claim describes. -/
theorem C6_retry_coordinator_unreachable :
    (publishStep c6State 7 0 (fun _ => some ⟨"https://img", none⟩)
        (Except.error "API timeout")).2 = DispatchOutcome.raisedError "API timeout" ∧
    findPost (publishStep c6State 7 0 (fun _ => some ⟨"https://img", none⟩)
        (Except.error "API timeout")).1.posts 7 =
      some (markFailedWith "API timeout" (mkPendingPost 7 1 100 0)) ∧
    (mkPendingPost 7 1 100 0).canRetry = false ∧
    (markFailedWith "API timeout" (mkPendingPost 7 1 100 0)).retryCount = 0 ∧
    (markFailedWith "API timeout" (mkPendingPost 7 1 100 0)).scheduledTime = 0 ∧
    rescheduleFailedPost (mkPendingPost 7 1 100 0) 0 2 ≠
      markFailedWith "API timeout" (mkPendingPost 7 1 100 0) := by
  decide

theorem rescheduleFailedPost_id (p : ScheduledPost) (now d : Int) :
    (rescheduleFailedPost p now d).id = p.id := by
  unfold rescheduleFailedPost
  split <;> rfl

theorem updatePost_map_id (posts : List ScheduledPost) (postId : Nat)
    (f : ScheduledPost → ScheduledPost) (hf : ∀ p, (f p).id = p.id) :
    (updatePost posts postId f).map (fun p => p.id) = posts.map (fun p => p.id) := by
  unfold updatePost
  rw [List.map_map]
  apply List.map_congr_left
  intro p _
  by_cases h : p.id = postId <;> simp [h, hf]

theorem findPost_updatePost_ne (posts : List ScheduledPost) (postId q : Nat)
    (f : ScheduledPost → ScheduledPost) (hf : ∀ p, (f p).id = p.id) (hne : q ≠ postId) :
    findPost (updatePost posts postId f) q = findPost posts q := by
  unfold findPost updatePost
  induction posts with
  | nil => rfl
  | cons p posts ih =>
    rw [List.map_cons, List.find?_cons, List.find?_cons]
    by_cases h : p.id = postId
    · have h1 : (decide ((if p.id = postId then f p else p).id = q)) = false := by
        simp [h, hf]
        omega
      have h2 : (decide (p.id = q)) = false := by
        simp [h]
        omega
      rw [h1, h2]
      exact ih
    · simp only [if_neg h]
      by_cases h3 : p.id = q
      · rw [show (decide (p.id = q)) = true by simp [h3]]
      · rw [show (decide (p.id = q)) = false by simp [h3]]
        exact ih

theorem findPost_updatePost_self (posts : List ScheduledPost) (postId : Nat)
    (f : ScheduledPost → ScheduledPost) (hf : ∀ p, (f p).id = p.id) :
    findPost (updatePost posts postId f) postId = (findPost posts postId).map f := by
  unfold findPost updatePost
  induction posts with
  | nil => rfl
  | cons p posts ih =>
    rw [List.map_cons, List.find?_cons, List.find?_cons]
    by_cases h : p.id = postId
    · have h1 : (decide ((if p.id = postId then f p else p).id = postId)) = true := by
        simp [h, hf]
      rw [h1, show (decide (p.id = postId)) = true by simp [h]]
      simp [h]
    · have h1 : (decide ((if p.id = postId then f p else p).id = postId)) = false := by
        simp [h]
      rw [h1, show (decide (p.id = postId)) = false by simp [h]]
      exact ih

theorem findPost_eq_some_imp (posts : List ScheduledPost) (i : Nat) (q : ScheduledPost)
    (h : findPost posts i = some q) : q ∈ posts ∧ q.id = i :=
  ⟨List.mem_of_find?_eq_some h, by simpa using List.find?_some h⟩

theorem findPost_mem_nodup (posts : List ScheduledPost)
    (hn : (posts.map (fun p => p.id)).Nodup) (q : ScheduledPost) (hq : q ∈ posts) :
    findPost posts q.id = some q := by
  unfold findPost
  induction posts with
  | nil => simp at hq
  | cons p posts ih =>
    rw [List.map_cons, List.nodup_cons] at hn
    rw [List.find?_cons]
    rcases List.mem_cons.mp hq with rfl | hq'
    · rw [show (decide (q.id = q.id)) = true by simp]
    · have hne : p.id ≠ q.id := by
        intro e
        exact hn.1 (e ▸ List.mem_map_of_mem (fun p => p.id) hq')
      rw [show (decide (p.id = q.id)) = false by simp [hne]]
      exact ih hn.2 hq'

theorem insertByTime_perm (p : ScheduledPost) :
    ∀ l : List ScheduledPost, (insertByTime p l).Perm (p :: l) := by
  intro l
  induction l with
  | nil => exact List.Perm.refl _
  | cons a l ih =>
    by_cases h : p.scheduledTime ≤ a.scheduledTime
    · rw [insertByTime, if_pos h]
    · rw [insertByTime, if_neg h]
      exact ((ih.cons a).trans (List.Perm.swap p a l))

theorem sortByTime_perm : ∀ l : List ScheduledPost, (sortByTime l).Perm l := by
  intro l
  induction l with
  | nil => exact List.Perm.refl _
  | cons p l ih =>
    rw [sortByTime]
    exact (insertByTime_perm p (sortByTime l)).trans (ih.cons p)

theorem publishStep_posts_shape (st : DispatchState) (postId : Nat) (now : Int)
    (contentOf : Nat → Option Content) (publish : Except String PubSuccess) :
    (publishStep st postId now contentOf publish).1.posts = st.posts ∨
    ∃ f : ScheduledPost → ScheduledPost, (∀ p, (f p).id = p.id) ∧
      (publishStep st postId now contentOf publish).1.posts = updatePost st.posts postId f := by
  unfold publishStep exceptBranch
  repeat' split
  all_goals
    first
      | exact Or.inl rfl
      | exact Or.inr ⟨fun p => rescheduleFailedPost p now 2,
          fun p => rescheduleFailedPost_id p now 2, rfl⟩
      | exact Or.inr ⟨markFailedWith _, fun p => rfl, rfl⟩
      | exact Or.inr ⟨markPublished _ now, fun p => rfl, rfl⟩

theorem publishStep_frame (st : DispatchState) (postId : Nat) (now : Int)
    (contentOf : Nat → Option Content) (publish : Except String PubSuccess)
    (q : Nat) (hne : q ≠ postId) :
    findPost (publishStep st postId now contentOf publish).1.posts q =
      findPost st.posts q := by
  rcases publishStep_posts_shape st postId now contentOf publish with h | ⟨f, hf, h⟩
  · rw [h]
  · rw [h, findPost_updatePost_ne _ _ _ _ hf hne]

theorem publishStep_id_map (st : DispatchState) (postId : Nat) (now : Int)
    (contentOf : Nat → Option Content) (publish : Except String PubSuccess) :
    (publishStep st postId now contentOf publish).1.posts.map (fun p => p.id) =
      st.posts.map (fun p => p.id) := by
  rcases publishStep_posts_shape st postId now contentOf publish with h | ⟨f, hf, h⟩
  · rw [h]
  · rw [h, updatePost_map_id _ _ _ hf]

theorem exceptBranch_pending (st : DispatchState) (postId : Nat) (msg : String)
    (now : Int) (post : ScheduledPost)
    (hfind : findPost st.posts postId = some post)
    (hpend : post.status = PostStatus.pending) :
    (exceptBranch st postId msg now).posts =
      updatePost st.posts postId (markFailedWith msg) := by
  unfold exceptBranch
  simp only [hfind]
  rw [if_neg]
  intro hcontra
  have := of_decide_eq_true hcontra
  rw [hpend] at this
  exact absurd this.1 (by decide)

theorem publishStep_terminal (st : DispatchState) (postId : Nat) (now : Int)
    (contentOf : Nat → Option Content) (publish : Except String PubSuccess)
    (post : ScheduledPost) (hfind : findPost st.posts postId = some post)
    (hpend : post.status = PostStatus.pending) :
    ∃ post', findPost (publishStep st postId now contentOf publish).1.posts postId =
        some post' ∧
      (post'.status = PostStatus.published ∨ post'.status = PostStatus.failed) := by
  have hself : ∀ msg : String,
      findPost (updatePost st.posts postId (markFailedWith msg)) postId =
        some (markFailedWith msg post) := by
    intro msg
    rw [findPost_updatePost_self st.posts postId (markFailedWith msg) (fun p => rfl), hfind]
    rfl
  unfold publishStep
  simp only [hfind]
  rw [if_neg (by simp [hpend])]
  split
  · rw [exceptBranch_pending st postId _ now post hfind hpend]
    exact ⟨_, hself _, Or.inr rfl⟩
  · split
    · rw [exceptBranch_pending st postId _ now post hfind hpend]
      exact ⟨_, hself _, Or.inr rfl⟩
    · split
      · exact ⟨_, hself _, Or.inr rfl⟩
      · split
        · rw [exceptBranch_pending st postId _ now post hfind hpend]
          exact ⟨_, hself _, Or.inr rfl⟩
        · split
          · rename_i r
            refine ⟨markPublished r now post, ?_, Or.inl rfl⟩
            rw [findPost_updatePost_self st.posts postId (markPublished r now)
              (fun p => rfl), hfind]
            rfl
          · rw [exceptBranch_pending st postId _ now post hfind hpend]
            exact ⟨_, hself _, Or.inr rfl⟩

theorem sweep_fold_spec (now : Int) (contentOf : Nat → Option Content)
    (publishOf : Nat → Except String PubSuccess) :
    ∀ (sel : List ScheduledPost) (st : DispatchState) (acc : List DispatchOutcome),
    (∀ p ∈ sel, findPost st.posts p.id = some p ∧ p.status = PostStatus.pending) →
    (sel.map (fun p => p.id)).Nodup →
    ((sel.foldl (fun acc p =>
        let r := publishStep acc.1 p.id now contentOf (publishOf p.id)
        (r.1, acc.2 ++ [r.2])) (st, acc)).1.posts.map (fun p => p.id) =
      st.posts.map (fun p => p.id)) ∧
    (∀ q : Nat, (∀ p ∈ sel, p.id ≠ q) →
      findPost (sel.foldl (fun acc p =>
        let r := publishStep acc.1 p.id now contentOf (publishOf p.id)
        (r.1, acc.2 ++ [r.2])) (st, acc)).1.posts q = findPost st.posts q) ∧
    (∀ p ∈ sel, ∃ post',
      findPost (sel.foldl (fun acc p =>
        let r := publishStep acc.1 p.id now contentOf (publishOf p.id)
        (r.1, acc.2 ++ [r.2])) (st, acc)).1.posts p.id = some post' ∧
      (post'.status = PostStatus.published ∨ post'.status = PostStatus.failed)) := by
  intro sel
  induction sel with
  | nil =>
    intro st acc _ _
    exact ⟨rfl, fun q _ => rfl, fun p hp => absurd hp (by simp)⟩
  | cons p sel ih =>
    intro st acc hsel hnodup
    rw [List.map_cons, List.nodup_cons] at hnodup
    have hp := hsel p (List.mem_cons_self _ _)
    have hne : ∀ p' ∈ sel, p'.id ≠ p.id := by
      intro p' hp' e
      exact hnodup.1 (e ▸ List.mem_map_of_mem (fun p => p.id) hp')
    have hsel' : ∀ p' ∈ sel,
        findPost (publishStep st p.id now contentOf (publishOf p.id)).1.posts p'.id =
          some p' ∧ p'.status = PostStatus.pending := by
      intro p' hp'
      rw [publishStep_frame st p.id now contentOf (publishOf p.id) p'.id (hne p' hp')]
      exact hsel p' (List.mem_cons_of_mem _ hp')
    obtain ⟨ihmap, ihframe, ihterm⟩ :=
      ih (publishStep st p.id now contentOf (publishOf p.id)).1
        (acc ++ [(publishStep st p.id now contentOf (publishOf p.id)).2]) hsel' hnodup.2
    refine ⟨?_, ?_, ?_⟩
    · rw [List.foldl_cons]
      rw [ihmap, publishStep_id_map]
    · intro q hq
      rw [List.foldl_cons]
      rw [ihframe q (fun p' hp' => hq p' (List.mem_cons_of_mem _ hp')),
        publishStep_frame st p.id now contentOf (publishOf p.id) q
          (hq p (List.mem_cons_self _ _)).symm]
    · intro p'' hp''
      rw [List.foldl_cons]
      rcases List.mem_cons.mp hp'' with rfl | hp''
      · obtain ⟨post', hpost', hterm⟩ :=
          publishStep_terminal st p''.id now contentOf (publishOf p''.id) p'' hp.1 hp.2
        refine ⟨post', ?_, hterm⟩
        rw [ihframe p''.id (fun p' hp' => hne p' hp'), hpost']
      · exact ihterm p'' hp''

/-- Claim C7 (confirmed): the due-post selection returns only posts with
status `pending` and `scheduled_time ≤ now` (first conjunct), so posts already
published, failed or cancelled are never re-selected; consequently, when all
due pending posts fit in the sweep's batch limit, running the sweep a second
time with no time advance and no new due posts selects nothing and changes
nothing (second conjunct).  `sweep` is the spec's select-then-dispatch driver
over the embedded selection and per-post dispatch. -/
theorem C7_sweep_idempotent :
    (∀ (posts : List ScheduledPost) (now : Int) (limit : Nat),
      ∀ q ∈ getNextPostsToPublish posts now limit,
        q.status = PostStatus.pending ∧ q.scheduledTime ≤ now) ∧
    (∀ (st : DispatchState) (now : Int) (limit : Nat)
        (contentOf : Nat → Option Content) (publishOf : Nat → Except String PubSuccess),
      (st.posts.map (fun p => p.id)).Nodup →
      (st.posts.filter (fun p => p.status = PostStatus.pending ∧
        p.scheduledTime ≤ now)).length ≤ limit →
      getNextPostsToPublish (sweep st now limit contentOf publishOf).1.posts now limit
        = [] ∧
      sweep (sweep st now limit contentOf publishOf).1 now limit contentOf publishOf =
        ((sweep st now limit contentOf publishOf).1, [])) := by
  constructor
  · exact selection_only_due_pending
  · intro st now limit contentOf publishOf hnodup hlim
    have htake : getNextPostsToPublish st.posts now limit =
        sortByTime (st.posts.filter (fun p => p.status = PostStatus.pending ∧
          p.scheduledTime ≤ now)) := by
      unfold getNextPostsToPublish
      apply List.take_of_length_le
      rw [length_sortByTime]
      exact hlim
    have hselmem : ∀ p ∈ getNextPostsToPublish st.posts now limit, p ∈ st.posts := by
      intro p hp
      rw [htake] at hp
      exact List.mem_of_mem_filter ((mem_sortByTime _).mp hp)
    have hselfind : ∀ p ∈ getNextPostsToPublish st.posts now limit,
        findPost st.posts p.id = some p ∧ p.status = PostStatus.pending := by
      intro p hp
      exact ⟨findPost_mem_nodup st.posts hnodup p (hselmem p hp),
        (selection_only_due_pending st.posts now limit p hp).1⟩
    have hselnodup : ((getNextPostsToPublish st.posts now limit).map
        (fun p => p.id)).Nodup := by
      have hfilnodup : ((st.posts.filter (fun p => p.status = PostStatus.pending ∧
          p.scheduledTime ≤ now)).map (fun p => p.id)).Nodup :=
        ((List.filter_sublist st.posts).map (fun p => p.id)).nodup hnodup
      have hsortnodup : ((sortByTime (st.posts.filter
          (fun p => p.status = PostStatus.pending ∧ p.scheduledTime ≤ now))).map
            (fun p => p.id)).Nodup :=
        (((sortByTime_perm (st.posts.filter (fun p => p.status = PostStatus.pending ∧
          p.scheduledTime ≤ now))).map (fun p => p.id)).nodup_iff).mpr hfilnodup
      unfold getNextPostsToPublish
      exact ((List.take_sublist limit (sortByTime (st.posts.filter
        (fun p => p.status = PostStatus.pending ∧
          p.scheduledTime ≤ now)))).map (fun p => p.id)).nodup hsortnodup
    obtain ⟨hmap, hframe, hterm⟩ := sweep_fold_spec now contentOf publishOf
      (getNextPostsToPublish st.posts now limit) st [] hselfind hselnodup
    have hnodup1 : ((sweep st now limit contentOf publishOf).1.posts.map
        (fun p => p.id)).Nodup := by
      unfold sweep
      rw [hmap]
      exact hnodup
    have hfilter1 : (sweep st now limit contentOf publishOf).1.posts.filter
        (fun p => p.status = PostStatus.pending ∧ p.scheduledTime ≤ now) = [] := by
      apply List.filter_eq_nil_iff.mpr
      intro q hq hpred
      have hqpend : q.status = PostStatus.pending ∧ q.scheduledTime ≤ now :=
        of_decide_eq_true hpred
      have hqfind : findPost (sweep st now limit contentOf publishOf).1.posts q.id =
          some q := findPost_mem_nodup _ hnodup1 q hq
      by_cases hin : ∃ p ∈ getNextPostsToPublish st.posts now limit, p.id = q.id
      · obtain ⟨p, hp, hpq⟩ := hin
        obtain ⟨post', hpost', hterm'⟩ := hterm p hp
        unfold sweep at hqfind
        rw [hpq] at hpost'
        rw [hqfind] at hpost'
        obtain rfl := Option.some.inj hpost'
        rcases hterm' with h | h <;> rw [hqpend.1] at h <;> exact absurd h (by decide)
      · push_neg at hin
        have hframe' : findPost (sweep st now limit contentOf publishOf).1.posts q.id =
            findPost st.posts q.id := by
          unfold sweep
          exact hframe q.id hin
        rw [hframe'] at hqfind
        have hqmem : q ∈ st.posts := (findPost_eq_some_imp _ _ _ hqfind).1
        have hqfil : q ∈ st.posts.filter (fun p => p.status = PostStatus.pending ∧
            p.scheduledTime ≤ now) :=
          List.mem_filter.mpr ⟨hqmem, hpred⟩
        have hqsel : q ∈ getNextPostsToPublish st.posts now limit := by
          rw [htake]
          exact (mem_sortByTime _).mpr hqfil
        exact hin q hqsel rfl
    have hsel2 : getNextPostsToPublish
        (sweep st now limit contentOf publishOf).1.posts now limit = [] := by
      unfold getNextPostsToPublish
      rw [hfilter1]
      simp [sortByTime]
    refine ⟨hsel2, ?_⟩
    show sweep (sweep st now limit contentOf publishOf).1 now limit contentOf publishOf =
      ((sweep st now limit contentOf publishOf).1, [])
    unfold sweep
    unfold sweep at hsel2
    rw [hsel2]
    rfl

/-- Witness for C7 at a concrete state: one due pending post with a healthy
account; after the first sweep the selection is empty and a second sweep is a
no-op. -/
theorem C7_sweep_idempotent_witness :
    getNextPostsToPublish
      (sweep c6State 0 100 (fun _ => some ⟨"https://img", none⟩)
        (fun _ => Except.ok ⟨some "pid", some "purl"⟩)).1.posts 0 100 = [] ∧
    sweep (sweep c6State 0 100 (fun _ => some ⟨"https://img", none⟩)
        (fun _ => Except.ok ⟨some "pid", some "purl"⟩)).1 0 100
      (fun _ => some ⟨"https://img", none⟩)
      (fun _ => Except.ok ⟨some "pid", some "purl"⟩) =
      ((sweep c6State 0 100 (fun _ => some ⟨"https://img", none⟩)
        (fun _ => Except.ok ⟨some "pid", some "purl"⟩)).1, []) :=
  C7_sweep_idempotent.2 c6State 0 100 (fun _ => some ⟨"https://img", none⟩)
    (fun _ => Except.ok ⟨some "pid", some "purl"⟩) (by decide) (by decide)

end VB

